import Mathlib

/-!
Verification of the go-streamdeck protocol engine: a shallow embedding of the
outbound packet framer (`rawWriteToButton` with the per-device header builders),
the inbound decoder loop (`eventListener`), the TCP handshake of `OpenTCP`, and
the TCP transport's `SendFeatureReport`, together with theorems settling the
frozen claims about them.

Bytes are modelled as `Nat` values (always reduced `% 256` where the Go code
converts to `byte`), buffers as `List Nat`, Go `int` as `Int` where sign
matters, and the blocking read loop as a function over an explicit list of
read outcomes, each carrying the (millisecond) timestamp `time.Now()` returns
during that iteration.
-/

set_option maxRecDepth 40000

namespace Streamdeck

/-- Events fanned out by the decoder to registered callbacks.
`press i` / `release i` are `sendButtonPressEvent(i, nil)` /
`sendButtonReleaseEvent(i, nil)`; `disconnect` is the
`sendButtonPressEvent(-1, err)` invocation carrying a transport error. -/
inductive Event where
  | press (btnIndex : Int)
  | release (btnIndex : Int)
  | disconnect
  | encoderPush (i : Nat) (pressed : Bool)
  | encoderRotate (i : Nat) (pulses : Int)
  | touchPush (xpos ypos : Nat) (hold : Bool)
  | touchSwipe (xstart ystart xstop ystop : Nat)
  | nfc (payload : List Nat)
  deriving DecidableEq, Repr

/-- The fields of `deviceType` that the protocol engine reads (src/unnamed/part_002).
`buttonMap` is the logical-to-physical remap table (`nil` for every device
registered in this tree, modelled as the empty association list). -/
structure DeviceType where
  name : String
  usbProductID : Nat
  numberOfButtons : Nat
  buttonReadOffset : Nat
  imagePayloadPerPage : Nat
  imageHeaderFunc : Nat → Nat → Nat → List Nat
  buttonMap : List (Nat × Nat)

/-- Go helper `Min` on `int`. -/
def goMin (x y : Int) : Int := if x < y then x else y

/-- Go helper `Max` on `int`. -/
def goMax (x y : Int) : Int := if x > y then x else y

/-- `binary.LittleEndian.Uint16(data[off:])`. -/
def leUint16 (data : List Nat) (off : Nat) : Nat :=
  data.getD off 0 + 256 * data.getD (off + 1) 0

/-- `binary.BigEndian.Uint16(data[off:])`. -/
def beUint16 (data : List Nat) (off : Nat) : Nat :=
  256 * data.getD off 0 + data.getD (off + 1) 0

/-- Package variable `plusImageReportPayloadLength` of the devices package. -/
def plusImageReportPayloadLength : Nat := 1024

/-- `GetImageHeaderPlus` from src/unnamed/part_000: the button-image header
builder registered for the Streamdeck Plus. -/
def GetImageHeaderPlus (bytesRemaining btnIndex pageNumber : Nat) : List Nat :=
  let thisLength :=
    if plusImageReportPayloadLength < bytesRemaining then plusImageReportPayloadLength
    else bytesRemaining
  [0x02, 0x07, btnIndex % 256,
   if thisLength = bytesRemaining then 0x01 else 0x00,
   thisLength % 256, thisLength / 256 % 256,
   pageNumber % 256, pageNumber / 256 % 256]

/-- Package variable `neoImageReportPayloadLength` of the devices package. -/
def neoImageReportPayloadLength : Nat := 1024

/-- `GetImageHeaderNeo` from src/devices/neo.go (same shape as the Plus header). -/
def GetImageHeaderNeo (bytesRemaining btnIndex pageNumber : Nat) : List Nat :=
  let thisLength :=
    if neoImageReportPayloadLength < bytesRemaining then neoImageReportPayloadLength
    else bytesRemaining
  [0x02, 0x07, btnIndex % 256,
   if thisLength = bytesRemaining then 0x01 else 0x00,
   thisLength % 256, thisLength / 256 % 256,
   pageNumber % 256, pageNumber / 256 % 256]

/-- The Streamdeck Plus descriptor as registered in src/unnamed/part_000. -/
def plusDevice : DeviceType :=
  { name := "Streamdeck Plus", usbProductID := 0x84, numberOfButtons := 8,
    buttonReadOffset := 4, imagePayloadPerPage := plusImageReportPayloadLength,
    imageHeaderFunc := GetImageHeaderPlus, buttonMap := [] }

/-- The Streamdeck Neo descriptor as registered in src/devices/neo.go. -/
def neoDevice : DeviceType :=
  { name := "Streamdeck Neo", usbProductID := 0x9a, numberOfButtons := 10,
    buttonReadOffset := 4, imagePayloadPerPage := neoImageReportPayloadLength,
    imageHeaderFunc := GetImageHeaderNeo, buttonMap := [] }

/-- `mapButtonOut`: remap a physical button index through the descriptor's
`buttonMap` (identity on unmapped indices), as a Go `int`. -/
def mapButtonOut (d : DeviceType) (btnIndex : Nat) : Int :=
  Int.ofNat ((d.buttonMap.lookup btnIndex).getD btnIndex)

/-- The `for bytesRemaining > 0` loop of `rawWriteToButton`
(src/unnamed/part_002), with explicit fuel (the Go loop can fail to terminate
only in degenerate descriptors; every theorem below supplies enough fuel).
Returns the list of buffers passed to `d.fd.Write`, in order. -/
def frameLoop (d : DeviceType) (btnIndex : Nat) (rawImage : List Nat) :
    Nat → Nat → Nat → Nat → Option (List (List Nat))
  | bytesRemaining, _, _, 0 =>
    if bytesRemaining = 0 then some [] else none
  | bytesRemaining, bytesSent, pageNumber, fuel + 1 =>
    if bytesRemaining = 0 then some []
    else
      let header := d.imageHeaderFunc bytesRemaining btnIndex pageNumber
      let imageReportLength := d.imagePayloadPerPage
      let imageReportPayloadLength := imageReportLength - header.length
      let halfImage := rawImage.length / 2
      let thisLength :=
        if imageReportPayloadLength < bytesRemaining then
          if d.name = "Streamdeck (original)" then halfImage
          else imageReportPayloadLength
        else bytesRemaining
      let payload := header ++ (rawImage.drop bytesSent).take thisLength
      let padding := List.replicate (imageReportLength - payload.length) 0
      let thingToSend := payload ++ padding
      match frameLoop d btnIndex rawImage (bytesRemaining - thisLength)
          (bytesSent + thisLength) (pageNumber + 1) fuel with
      | some rest => some (thingToSend :: rest)
      | none => none

/-- `rawWriteToButton` from src/unnamed/part_002: validates the index with
`Min(Max(btnIndex, 0), numberOfButtons) != btnIndex`, then frames the payload.
`Except.ok` carries the packets written to the transport; `Except.error` means
no transport write happened. -/
def rawWriteToButton (d : DeviceType) (btnIndex : Int) (rawImage : List Nat) :
    Except String (List (List Nat)) :=
  if goMin (goMax btnIndex 0) (Int.ofNat d.numberOfButtons) ≠ btnIndex then
    Except.error "Invalid key index"
  else
    match frameLoop d btnIndex.toNat rawImage rawImage.length 0 0 rawImage.length with
    | some packets => Except.ok packets
    | none => Except.error "frame loop ran out of fuel"

/-! ## Inbound decoder (`eventListener`, src/unnamed/part_002) -/

/-- Local constant `numberOfEncoders` of `eventListener`. -/
def numberOfEncoders : Nat := 4

/-- Local constant `encoderReadOffset` of `eventListener`. -/
def encoderReadOffset : Nat := 5

/-- The mutable state owned by the decoder loop: the per-button debounce masks
and timers, their per-encoder counterparts, and the liveness timestamp
`lastIncomingDataTime` (milliseconds). -/
structure ListenerState where
  buttonMask : List Bool
  buttonTime : List Nat
  encoderButtonMask : List Bool
  encoderButtonTime : List Nat
  lastIncomingDataTime : Nat
  deriving DecidableEq, Repr

/-- The state at the top of `eventListener`: all masks false, all debounce
timers and the liveness timestamp set to the loop start time `t0`. -/
def initState (d : DeviceType) (t0 : Nat) : ListenerState :=
  { buttonMask := List.replicate d.numberOfButtons false
    buttonTime := List.replicate d.numberOfButtons t0
    encoderButtonMask := List.replicate numberOfEncoders false
    encoderButtonTime := List.replicate numberOfEncoders t0
    lastIncomingDataTime := t0 }

/-- The debounce-and-latch scan shared by the standard-button loop and the
encoder-press loop of `eventListener`: for each index `i` (in order), a state
byte equal to 1 at `data[off+i]` raises `pressEv i` gated by the 100 ms
debounce timer and the latch mask, and any other byte raises `relEv i` iff the
latch mask holds.  `time.Now().After(t.Add(100ms))` is the strict comparison
`t + 100 < now`. -/
def scanIdx (off : Nat) (pressEv relEv : Nat → Event) (now : Nat) (data : List Nat) :
    List Nat → List Bool → List Nat → List Event × List Bool × List Nat
  | [], mask, btime => ([], mask, btime)
  | i :: rest, mask, btime =>
    if data.getD (off + i) 0 = 1 then
      if btime.getD i 0 + 100 < now then
        if mask.getD i false then
          scanIdx off pressEv relEv now data rest (mask.set i true) btime
        else
          let r := scanIdx off pressEv relEv now data rest (mask.set i true) (btime.set i now)
          (pressEv i :: r.1, r.2)
      else
        scanIdx off pressEv relEv now data rest mask btime
    else
      if mask.getD i false then
        let r := scanIdx off pressEv relEv now data rest (mask.set i false) btime
        (relEv i :: r.1, r.2)
      else
        scanIdx off pressEv relEv now data rest mask btime

/-- The encoder-rotation loop (`case 1` of the encoder sub-protocol): a nonzero
byte at `data[encoderReadOffset+i]` is a signed delta, values above 127
reinterpreted as `value - 256`. -/
def rotateScan (data : List Nat) : List Nat → List Event
  | [] => []
  | i :: rest =>
    if 0 < data.getD (encoderReadOffset + i) 0 then
      let rev : Int := Int.ofNat (data.getD (encoderReadOffset + i) 0)
      let rev := if 127 < rev then rev - 256 else rev
      Event.encoderRotate i rev :: rotateScan data rest
    else rotateScan data rest

/-- The touch sub-protocol (`case 2`): byte 4 selects tap, hold or swipe. -/
def touchEvents (data : List Nat) : List Event :=
  if data.getD 4 0 = 1 then
    [Event.touchPush (leUint16 data 6) (leUint16 data 8) false]
  else if data.getD 4 0 = 2 then
    [Event.touchPush (leUint16 data 6) (leUint16 data 8) true]
  else if data.getD 4 0 = 3 then
    [Event.touchSwipe (leUint16 data 6) (leUint16 data 8) (leUint16 data 10) (leUint16 data 12)]
  else []

/-- One iteration body of `eventListener` after a successful `Read`: `now` is
what `time.Now()` returns during this iteration, `data` the (zero-initialised
1024-byte) report buffer, and `writeOk` tells whether the keep-alive reply
write — the only transport write the loop performs — succeeds.  In the Go code
a failed keep-alive reply write raises the `-1` event and executes `break`,
which leaves the `switch` statement, not the `for` loop, so the loop continues
afterwards either way. -/
def processReport (d : DeviceType) (s : ListenerState) (now : Nat) (data : List Nat)
    (writeOk : Bool) : List Event × ListenerState :=
  if data.getD 0 0 = 1 then
    if (d.name = "Streamdeck Plus" ∨ d.name = "Streamdeck Studio") ∧ 0 < data.getD 1 0 then
      if data.getD 1 0 = 0x0a then
        let s := { s with lastIncomingDataTime := now }
        if writeOk then ([], s) else ([Event.disconnect], s)
      else if data.getD 1 0 = 4 then
        let chars := leUint16 data 2
        if 4 + chars < data.length then ([Event.nfc ((data.drop 4).take chars)], s)
        else ([], s)
      else if data.getD 1 0 = 2 then
        (touchEvents data, s)
      else if data.getD 1 0 = 3 then
        if data.getD 4 0 = 1 then
          (rotateScan data (List.range numberOfEncoders), s)
        else if data.getD 4 0 = 0 then
          let r := scanIdx encoderReadOffset (fun i => Event.encoderPush i true)
            (fun i => Event.encoderPush i false) now data
            (List.range numberOfEncoders) s.encoderButtonMask s.encoderButtonTime
          (r.1, { s with encoderButtonMask := r.2.1, encoderButtonTime := r.2.2 })
        else ([], s)
      else ([], s)
    else
      let r := scanIdx d.buttonReadOffset (fun i => Event.press (mapButtonOut d i))
        (fun i => Event.release (mapButtonOut d i)) now data
        (List.range d.numberOfButtons) s.buttonMask s.buttonTime
      (r.1, { s with buttonMask := r.2.1, buttonTime := r.2.2 })
  else ([], s)

/-- One outcome of the blocking `d.fd.Read` at the top of the loop. -/
inductive ReadOutcome where
  | frame (now : Nat) (data : List Nat) (writeOk : Bool)
  | fail
  deriving DecidableEq, Repr

/-- The `for` loop of `eventListener` run against a list of read outcomes:
a failed read emits exactly `sendButtonPressEvent(-1, err)` and leaves the
loop (`break` at top level).  Returns the emitted events (in order) and the
final decoder state. -/
def eventLoop (d : DeviceType) (s : ListenerState) :
    List ReadOutcome → List Event × ListenerState
  | [] => ([], s)
  | ReadOutcome.fail :: _ => ([Event.disconnect], s)
  | ReadOutcome.frame now data writeOk :: rest =>
    let r := processReport d s now data writeOk
    let r2 := eventLoop d r.2 rest
    (r.1 ++ r2.1, r2.2)

/-- The events `eventListener` emits, starting from the initial state taken at
time `t0`. -/
def eventListener (d : DeviceType) (t0 : Nat) (reads : List ReadOutcome) : List Event :=
  (eventLoop d (initState d t0) reads).1

/-- The watchdog condition checked every polling second on IP connections:
`time.Since(lastTime) > 5*time.Second`, in milliseconds. -/
def watchdogShouldClose (lastIncomingDataTime now : Nat) : Bool :=
  decide (5000 < now - lastIncomingDataTime)

/-! ## Network transport (`OpenTCP`, `TCPClient`) -/

/-- The serial extracted from one handshake reply frame in `OpenTCP`
(src/unnamed/part_002): `n` is the byte count `conn.Read` returned, and the
serial is `data[4 : 4+chars]` when `data[0]=0x03`, `data[1]=0x84` and
`n > 4+chars` for the big-endian length `chars` at offset 2; otherwise the
loop's `serialNumber` stays empty. -/
def tcpSerialFromReply (n : Nat) (data : List Nat) : List Nat :=
  let chars := beUint16 data 2
  if data.getD 0 0 = 0x03 ∧ data.getD 1 0 = 0x84 ∧ 4 + chars < n then
    (data.drop 4).take chars
  else []

/-- The `for serialNumber == ""` handshake loop of `OpenTCP` over a list of
successful reads (byte count, buffer): keeps reading until a reply yields a
nonempty serial. -/
def openTCPSerialScan : List (Nat × List Nat) → Option (List Nat)
  | [] => none
  | (n, data) :: rest =>
    let serial := tcpSerialFromReply n data
    if serial = [] then openTCPSerialScan rest else some serial

/-- Modelled from the spec: the handshake acceptance condition as the spec
words it — byte 0 is 0x03, byte 1 is 0x84, and the frame is long enough to
contain the big-endian length `L` (at offset 2) bytes starting at offset 4,
i.e. `4 + L ≤ n` for `n` bytes read.  Used to compare the spec's wording
with the code's strict `n > 4 + L` test. -/
def specAcceptsReplyFrame (n : Nat) (data : List Nat) : Bool :=
  decide (data.getD 0 0 = 0x03 ∧ data.getD 1 0 = 0x84 ∧ 4 + beUint16 data 2 ≤ n)

/-- Go's builtin `copy(dst, src)` on byte slices: copies
`min (src.length) (dst.length)` bytes into the front of `dst`. -/
def goCopy (dst src : List Nat) : List Nat :=
  (List.range dst.length).map fun i =>
    if i < src.length then src.getD i 0 else dst.getD i 0

/-- `TCPClient.SendFeatureReport` (src/image.go): copy the payload into a fresh
1024-byte zero buffer and write the entire buffer.  The returned list is what
goes to `conn.Write`. -/
def TCPClientSendFeatureReport (payload : List Nat) : List Nat :=
  goCopy (List.replicate 1024 0) payload

/-- A 1024-byte report whose byte 0 is 1, byte `pos` is `b`, and all other
bytes are zero (the shape of a legacy button report with a single active
button byte). -/
def mkReport (pos b : Nat) : List Nat :=
  (List.range 1024).map fun j => if j = 0 then 1 else if j = pos then b else 0


/-- Alternation predicate used to state the press/release latch discipline:
starting from latch state `b`, the word `w` strictly alternates `p` (press,
from `b = false`) and `r` (release, from `b = true`). -/
def altFrom (p r : Event) : Bool → List Event → Bool
  | _, [] => true
  | false, e :: w => decide (e = p) && altFrom p r true w
  | true, e :: w => decide (e = r) && altFrom p r false w

/-! ## Framing lemmas -/

lemma frameLoop_zero_rem (d : DeviceType) (btn : Nat) (img : List Nat)
    (sent page fuel : Nat) :
    frameLoop d btn img 0 sent page fuel = some [] := by
  cases fuel <;> simp [frameLoop]

lemma GetImageHeaderPlus_length (r b p : Nat) :
    (GetImageHeaderPlus r b p).length = 8 := rfl

lemma frameLoop_step (d : DeviceType) (btn : Nat) (img : List Nat)
    (rem sent page fuel : Nat) (h0 : rem ≠ 0) :
    frameLoop d btn img rem sent page (fuel + 1) =
      (let header := d.imageHeaderFunc rem btn page
       let thisLength :=
         if d.imagePayloadPerPage - header.length < rem then
           if d.name = "Streamdeck (original)" then img.length / 2
           else d.imagePayloadPerPage - header.length
         else rem
       let payload := header ++ (img.drop sent).take thisLength
       let packet := payload ++ List.replicate (d.imagePayloadPerPage - payload.length) 0
       match frameLoop d btn img (rem - thisLength) (sent + thisLength) (page + 1) fuel with
       | some rest => some (packet :: rest)
       | none => none) := by
  simp only [frameLoop, if_neg h0]


lemma frameLoop_plus_spec (d : DeviceType)
    (hH : ∀ r b p, d.imageHeaderFunc r b p = GetImageHeaderPlus r b p)
    (hCap : d.imagePayloadPerPage = 1024)
    (hName : d.name ≠ "Streamdeck (original)") (btn : Nat) (img : List Nat) :
    ∀ fuel rem sent page, 0 < rem → rem ≤ fuel → sent + rem = img.length →
    ∃ pkts, frameLoop d btn img rem sent page fuel = some pkts ∧
      pkts.length = (rem + 1015) / 1016 ∧
      ∀ j, j < pkts.length →
        pkts.getD j [] =
          GetImageHeaderPlus (rem - j * 1016) btn (page + j) ++
          (img.drop (sent + j * 1016)).take (min 1016 (rem - j * 1016)) ++
          List.replicate (1016 - (rem - j * 1016)) 0 := by
  intro fuel
  induction fuel with
  | zero => intro rem sent page h0 hf hinv; omega
  | succ fuel ih =>
    intro rem sent page h0 hf hinv
    rw [frameLoop_step d btn img rem sent page fuel (by omega)]
    simp only [hH, hCap, GetImageHeaderPlus_length, if_neg hName]
    have hdrop : (List.drop sent img).length = rem := by
      simp only [List.length_drop]; omega
    by_cases hle : rem ≤ 1016
    · -- last chunk: thisLength = rem
      have hlt : ¬ (1024 - 8 < rem) := by omega
      rw [if_neg hlt, Nat.sub_self, frameLoop_zero_rem]
      refine ⟨_, rfl, ?_, ?_⟩
      · simp only [List.length_cons, List.length_nil]; omega
      · intro j hj
        simp only [List.length_cons, List.length_nil] at hj
        interval_cases j
        simp only [List.getD_cons_zero, Nat.zero_mul, Nat.sub_zero, Nat.add_zero]
        have htk : (List.take rem (List.drop sent img)).length = rem := by
          simp only [List.length_take, hdrop, Nat.min_self, inf_idem]
        have hmin : min 1016 rem = rem := Nat.min_eq_right hle
        have hlenp : (GetImageHeaderPlus rem btn page ++
            List.take rem (List.drop sent img)).length = 8 + rem := by
          simp only [List.length_append, GetImageHeaderPlus_length, htk]
        rw [hmin, hlenp, show 1024 - (8 + rem) = 1016 - rem by omega]
    · -- full chunk: thisLength = 1016
      have hlt : (1024 - 8 < rem) := by omega
      rw [if_pos hlt]
      obtain ⟨pkts, hpk, hlen, hcontent⟩ :=
        ih (rem - (1024 - 8)) (sent + (1024 - 8)) (page + 1) (by omega) (by omega) (by omega)
      rw [hpk]
      refine ⟨_, rfl, ?_, ?_⟩
      · simp only [List.length_cons, hlen]; omega
      · intro j hj
        simp only [List.length_cons] at hj
        match j with
        | 0 =>
          simp only [List.getD_cons_zero, Nat.zero_mul, Nat.sub_zero, Nat.add_zero]
          have htk : (List.take (1024 - 8) (List.drop sent img)).length = 1016 := by
            simp only [List.length_take, hdrop]; omega
          have hmin : min 1016 rem = 1016 := Nat.min_eq_left (by omega)
          have hlenp : (GetImageHeaderPlus rem btn page ++
              List.take (1024 - 8) (List.drop sent img)).length = 8 + 1016 := by
            simp only [List.length_append, GetImageHeaderPlus_length, htk]
          rw [hmin, hlenp, show (1024:Nat) - (8 + 1016) = 0 by norm_num,
            show (1016:Nat) - rem = 0 by omega, show (1024:Nat) - 8 = 1016 by norm_num]
        | j + 1 =>
          have hj2 : j < pkts.length := by omega
          have e1 : rem - (1024 - 8) - j * 1016 = rem - (j + 1) * 1016 := by omega
          have e2 : sent + (1024 - 8) + j * 1016 = sent + (j + 1) * 1016 := by omega
          have e3 : page + 1 + j = page + (j + 1) := by omega
          simp only [List.getD_cons_succ]
          rw [hcontent j hj2, e1, e2, e3]


lemma goMax_natCast_zero (b : Nat) : goMax (b : Int) 0 = (b : Int) := by
  simp only [goMax]; split <;> omega

lemma goMin_natCast_le (b n : Nat) (h : b ≤ n) :
    goMin (b : Int) (n : Int) = (b : Int) := by
  simp only [goMin]; split <;> omega

lemma rawWriteToButton_plus_spec (d : DeviceType)
    (hH : ∀ r b p, d.imageHeaderFunc r b p = GetImageHeaderPlus r b p)
    (hCap : d.imagePayloadPerPage = 1024)
    (hName : d.name ≠ "Streamdeck (original)")
    (btn : Nat) (hbtn : btn ≤ d.numberOfButtons)
    (img : List Nat) (hN : 0 < img.length) :
    ∃ pkts, rawWriteToButton d (btn : Int) img = Except.ok pkts ∧
      pkts.length = (img.length + 1015) / 1016 ∧
      ∀ j, j < pkts.length →
        pkts.getD j [] =
          GetImageHeaderPlus (img.length - j * 1016) btn j ++
          (img.drop (j * 1016)).take (min 1016 (img.length - j * 1016)) ++
          List.replicate (1016 - (img.length - j * 1016)) 0 := by
  obtain ⟨pkts, hpk, hlen, hcontent⟩ :=
    frameLoop_plus_spec d hH hCap hName btn img img.length img.length 0 0 hN le_rfl (by omega)
  refine ⟨pkts, ?_, hlen, ?_⟩
  · rw [rawWriteToButton, if_neg]
    · have htn : (btn : Int).toNat = btn := Int.toNat_natCast btn
      rw [htn, hpk]
    · simp only [Int.ofNat_eq_natCast]
      rw [goMax_natCast_zero, goMin_natCast_le btn d.numberOfButtons hbtn]
      simp
  · intro j hj
    have := hcontent j hj
    simpa using this

lemma GetImageHeaderPlus_getD_three (r b p : Nat) :
    (GetImageHeaderPlus r b p).getD 3 0 = if r ≤ 1024 then 1 else 0 := by
  unfold GetImageHeaderPlus plusImageReportPayloadLength
  by_cases h : 1024 < r
  · simp [h, show ¬ (1024 = r) from by omega, show ¬ (r ≤ 1024) from by omega, List.getD]
  · simp [h, show r ≤ 1024 from by omega, List.getD]

lemma GetImageHeaderPlus_getD_six (r b p : Nat) :
    (GetImageHeaderPlus r b p).getD 6 0 = p % 256 := rfl

lemma GetImageHeaderPlus_getD_seven (r b p : Nat) :
    (GetImageHeaderPlus r b p).getD 7 0 = p / 256 % 256 := rfl


/-! ## Claim C1 — framing packet structure -/

/-- C1 (counterexample): the claim "final-chunk flag byte set to 1 on exactly
the last packet and 0 on every other packet" is false on the code.  Framing a
2040-byte payload to button 0 of the Streamdeck Plus yields 3 packets, and the
flag byte (offset 3) of the middle packet (page 1) is already 1: the header
builder `GetImageHeaderPlus` compares `bytesRemaining` against the full packet
capacity 1024, while the loop chunks by 1024−8 = 1016 bytes, so the
second-to-last packet (remaining 1024 ∈ (1016, 1024]) is flagged final. -/
theorem framing_final_flag_counterexample :
    ∃ pkts, rawWriteToButton plusDevice ((0 : Nat) : Int) (List.replicate 2040 7) =
        Except.ok pkts ∧
      pkts.length = 3 ∧ (pkts.getD 1 []).getD 3 0 = 1 := by
  obtain ⟨pkts, hpk, hlen, hcontent⟩ :=
    rawWriteToButton_plus_spec plusDevice (fun r b p => rfl) rfl (by decide) 0
      (by norm_num [plusDevice]) (List.replicate 2040 7)
      (by rw [List.length_replicate]; omega)
  have hlen3 : pkts.length = 3 := by
    rw [hlen, List.length_replicate]
  refine ⟨pkts, hpk, hlen3, ?_⟩
  have h1 := hcontent 1 (by omega)
  rw [List.length_replicate] at h1
  rw [h1, List.append_assoc,
    List.getD_append _ _ _ _ (by rw [GetImageHeaderPlus_length]; omega),
    GetImageHeaderPlus_getD_three]
  norm_num

/-- C1 (amended): framing an N-byte payload through `rawWriteToButton` with a
Plus-shaped header builder and 1024-byte packet capacity, on any device family
other than "Streamdeck (original)", emits exactly `ceil(N/1016)` packets, each
exactly 1024 bytes long, with the little-endian 16-bit page field of packet
`j` equal to `j` (hence strictly increasing `0..k-1`); the final-chunk flag
byte of packet `j` is 1 exactly when the bytes remaining before that packet
are at most 1024 — so it is 1 on the last packet, but also on the preceding
packet whenever the remainder there lies in (1016, 1024]. -/
theorem framing_packet_structure_amended (d : DeviceType)
    (hH : ∀ r b p, d.imageHeaderFunc r b p = GetImageHeaderPlus r b p)
    (hCap : d.imagePayloadPerPage = 1024)
    (hName : d.name ≠ "Streamdeck (original)")
    (btn : Nat) (hbtn : btn ≤ d.numberOfButtons)
    (img : List Nat) (hN : 0 < img.length) (hBound : img.length ≤ 1016 * 65536) :
    ∃ pkts, rawWriteToButton d (btn : Int) img = Except.ok pkts ∧
      pkts.length = (img.length + 1015) / 1016 ∧
      (∀ j, j < pkts.length → (pkts.getD j []).length = 1024) ∧
      (∀ j, j < pkts.length → leUint16 (pkts.getD j []) 6 = j) ∧
      (∀ j, j < pkts.length →
        (pkts.getD j []).getD 3 0 = if img.length ≤ j * 1016 + 1024 then 1 else 0) := by
  obtain ⟨pkts, hpk, hlen, hcontent⟩ :=
    rawWriteToButton_plus_spec d hH hCap hName btn hbtn img hN
  have hjlt : ∀ j, j < pkts.length → j * 1016 < img.length := by
    intro j hj; rw [hlen] at hj; omega
  have hj16 : ∀ j, j < pkts.length → j < 65536 := by
    intro j hj; rw [hlen] at hj; omega
  refine ⟨pkts, hpk, hlen, ?_, ?_, ?_⟩
  · intro j hj
    rw [hcontent j hj]
    have := hjlt j hj
    simp only [List.length_append, GetImageHeaderPlus_length, List.length_take,
      List.length_drop, List.length_replicate]
    omega
  · intro j hj
    rw [leUint16, hcontent j hj, List.append_assoc,
      List.getD_append _ _ _ _ (by rw [GetImageHeaderPlus_length]; omega),
      List.getD_append _ _ _ _ (by rw [GetImageHeaderPlus_length]; omega),
      GetImageHeaderPlus_getD_six, GetImageHeaderPlus_getD_seven]
    have := hj16 j hj
    omega
  · intro j hj
    rw [hcontent j hj, List.append_assoc,
      List.getD_append _ _ _ _ (by rw [GetImageHeaderPlus_length]; omega),
      GetImageHeaderPlus_getD_three]
    have := hjlt j hj
    by_cases h : img.length ≤ j * 1016 + 1024
    · rw [if_pos h, if_pos (by omega)]
    · rw [if_neg h, if_neg (by omega)]

/-- C1 (witness): the amended framing theorem applied to the Streamdeck Plus,
button 0, and a concrete 2040-byte payload. -/
theorem framing_packet_structure_witness :
    plusDevice.name ≠ "Streamdeck (original)" ∧
    0 < (List.replicate 2040 (7 : Nat)).length ∧
    (∃ pkts, rawWriteToButton plusDevice ((0 : Nat) : Int) (List.replicate 2040 (7 : Nat)) =
        Except.ok pkts ∧
      pkts.length = ((List.replicate 2040 (7 : Nat)).length + 1015) / 1016 ∧
      (∀ j, j < pkts.length → (pkts.getD j []).length = 1024) ∧
      (∀ j, j < pkts.length → leUint16 (pkts.getD j []) 6 = j) ∧
      (∀ j, j < pkts.length →
        (pkts.getD j []).getD 3 0 =
          if (List.replicate 2040 (7 : Nat)).length ≤ j * 1016 + 1024 then 1 else 0)) :=
  ⟨by decide, by rw [List.length_replicate]; omega,
   framing_packet_structure_amended plusDevice (fun r b p => rfl) rfl (by decide) 0
     (by norm_num [plusDevice]) (List.replicate 2040 7)
     (by rw [List.length_replicate]; omega)
     (by rw [List.length_replicate]; norm_num)⟩

/-! ## Claim C2 — out-of-range button index -/

/-- C2: the claim (and the spec's precondition `0 <= index < numberOfButtons`)
is right and the code is wrong.  `rawWriteToButton` validates the index with
`Min(Max(btnIndex, 0), numberOfButtons) != btnIndex`, which accepts
`btnIndex = numberOfButtons` (one past the last valid index): for the
Streamdeck Plus (8 buttons) a write to button index 8 returns success and
performs one transport write instead of failing fast with an invalid-index
error and zero writes.  (The Python source the code cites for this check uses
`KEY_COUNT - 1` as the upper clamp.) -/
theorem invalid_index_boundary_accepted :
    (rawWriteToButton plusDevice (Int.ofNat plusDevice.numberOfButtons) [42]).toOption.map
      List.length = some 1 := by rfl


/-! ## Claim C8 — chunk length rule -/

/-- C8: in button framing, every loop iteration's chunk length is
`min(payloadCapacity, bytesRemaining)` — where
`payloadCapacity = imagePayloadPerPage - len(header)` — with exactly one
exception: the "Streamdeck (original)" family uses the halved value
`len(rawImage) / 2` (the code's `halfImage`) whenever
`payloadCapacity < bytesRemaining`; no other device name ever takes the
halved branch.  Stated as a one-step unfolding of the framing loop valid at
every iteration with bytes remaining. -/
theorem chunk_length_min_with_original_exception (d : DeviceType) (btn : Nat)
    (img : List Nat) (rem sent page fuel : Nat) (h0 : 0 < rem) :
    frameLoop d btn img rem sent page (fuel + 1) =
      (let header := d.imageHeaderFunc rem btn page
       let payloadCapacity := d.imagePayloadPerPage - header.length
       let chunkLength :=
         if d.name = "Streamdeck (original)" ∧ payloadCapacity < rem then img.length / 2
         else min payloadCapacity rem
       let payload := header ++ (img.drop sent).take chunkLength
       let packet := payload ++ List.replicate (d.imagePayloadPerPage - payload.length) 0
       match frameLoop d btn img (rem - chunkLength) (sent + chunkLength) (page + 1) fuel with
       | some rest => some (packet :: rest)
       | none => none) := by
  rw [frameLoop_step d btn img rem sent page fuel (by omega)]
  have hsel :
      (if d.imagePayloadPerPage - (d.imageHeaderFunc rem btn page).length < rem then
        if d.name = "Streamdeck (original)" then img.length / 2
        else d.imagePayloadPerPage - (d.imageHeaderFunc rem btn page).length
      else rem) =
      (if d.name = "Streamdeck (original)" ∧
          d.imagePayloadPerPage - (d.imageHeaderFunc rem btn page).length < rem then
        img.length / 2
      else min (d.imagePayloadPerPage - (d.imageHeaderFunc rem btn page).length) rem) := by
    by_cases h1 : d.imagePayloadPerPage - (d.imageHeaderFunc rem btn page).length < rem <;>
      by_cases h2 : d.name = "Streamdeck (original)"
    · rw [if_pos h1, if_pos h2, if_pos ⟨h2, h1⟩]
    · rw [if_pos h1, if_neg h2, if_neg (by tauto)]
      omega
    · rw [if_neg h1, if_neg (by tauto)]
      omega
    · rw [if_neg h1, if_neg (by tauto)]
      omega
  simp only [hsel]


/-! ## Scan lemmas for the decoder -/

lemma getD_set_ne {α : Type} (l : List α) (i j : Nat) (v d : α) (h : i ≠ j) :
    (l.set i v).getD j d = l.getD j d := by
  simp [List.getD, List.getElem?_set_ne h]

lemma getD_set_self {α : Type} (l : List α) (i : Nat) (v d : α) (h : i < l.length) :
    (l.set i v).getD i d = v := by
  simp [List.getD, List.getElem?_set_self, h]

lemma scanIdx_noop (off : Nat) (pE rE : Nat → Event) (now : Nat) (data : List Nat)
    (idxs : List Nat) (mask : List Bool) (btime : List Nat)
    (h : ∀ j ∈ idxs, data.getD (off + j) 0 ≠ 1 ∧ mask.getD j false = false) :
    scanIdx off pE rE now data idxs mask btime = ([], mask, btime) := by
  induction idxs with
  | nil => rfl
  | cons i rest ih =>
    obtain ⟨hb, hm⟩ := h i (by simp)
    simp only [scanIdx, if_neg hb, hm]
    simp only [Bool.false_eq_true, if_false]
    exact ih fun j hj => h j (by simp [hj])

lemma scanIdx_events_mem (off : Nat) (pE rE : Nat → Event) (now : Nat) (data : List Nat)
    (idxs : List Nat) : ∀ (mask : List Bool) (btime : List Nat),
    ∀ e ∈ (scanIdx off pE rE now data idxs mask btime).1,
      ∃ i ∈ idxs, e = pE i ∨ e = rE i := by
  induction idxs with
  | nil => intro mask btime e he; simp [scanIdx] at he
  | cons i rest ih =>
    intro mask btime e he
    simp only [scanIdx] at he
    split at he
    · split at he
      · split at he
        · obtain ⟨j, hj, hd⟩ := ih _ _ e he
          exact ⟨j, by simp [hj], hd⟩
        · simp only [List.mem_cons] at he
          rcases he with rfl | he
          · exact ⟨i, by simp, Or.inl rfl⟩
          · obtain ⟨j, hj, hd⟩ := ih _ _ e he
            exact ⟨j, by simp [hj], hd⟩
      · obtain ⟨j, hj, hd⟩ := ih _ _ e he
        exact ⟨j, by simp [hj], hd⟩
    · split at he
      · simp only [List.mem_cons] at he
        rcases he with rfl | he
        · exact ⟨i, by simp, Or.inr rfl⟩
        · obtain ⟨j, hj, hd⟩ := ih _ _ e he
          exact ⟨j, by simp [hj], hd⟩
      · obtain ⟨j, hj, hd⟩ := ih _ _ e he
        exact ⟨j, by simp [hj], hd⟩

lemma scanIdx_state_not_mem (off : Nat) (pE rE : Nat → Event) (now : Nat) (data : List Nat)
    (idxs : List Nat) (i : Nat) (hni : i ∉ idxs) : ∀ (mask : List Bool) (btime : List Nat),
    (scanIdx off pE rE now data idxs mask btime).2.1.getD i false = mask.getD i false ∧
    (scanIdx off pE rE now data idxs mask btime).2.2.getD i 0 = btime.getD i 0 := by
  induction idxs with
  | nil => intro mask btime; exact ⟨rfl, rfl⟩
  | cons j rest ih =>
    intro mask btime
    have hji : j ≠ i := by rintro rfl; exact hni (by simp)
    have hrest : i ∉ rest := fun hr => hni (by simp [hr])
    simp only [scanIdx]
    split
    · split
      · split
        · rw [(ih hrest _ _).1, (ih hrest _ _).2, getD_set_ne _ _ _ _ _ hji]
          exact ⟨rfl, rfl⟩
        · refine ⟨?_, ?_⟩
          · rw [(ih hrest _ _).1, getD_set_ne _ _ _ _ _ hji]
          · rw [(ih hrest _ _).2, getD_set_ne _ _ _ _ _ hji]
      · exact ih hrest _ _
    · split
      · refine ⟨?_, ?_⟩
        · rw [(ih hrest _ _).1, getD_set_ne _ _ _ _ _ hji]
        · exact (ih hrest _ _).2
      · exact ih hrest _ _

lemma scanIdx_mask_length (off : Nat) (pE rE : Nat → Event) (now : Nat) (data : List Nat)
    (idxs : List Nat) : ∀ (mask : List Bool) (btime : List Nat),
    (scanIdx off pE rE now data idxs mask btime).2.1.length = mask.length := by
  induction idxs with
  | nil => intro mask btime; rfl
  | cons j rest ih =>
    intro mask btime
    simp only [scanIdx]
    split
    · split
      · split
        · rw [ih]; simp
        · rw [ih]; simp
      · exact ih _ _
    · split
      · rw [ih]; simp
      · exact ih _ _


lemma scanIdx_absent (off : Nat) (pE rE : Nat → Event) (now : Nat) (data : List Nat)
    (idxs : List Nat) (i : Nat) (hni : i ∉ idxs)
    (hinj : ∀ j ∈ idxs, j ≠ i → pE j ≠ pE i ∧ pE j ≠ rE i ∧ rE j ≠ pE i ∧ rE j ≠ rE i)
    (mask : List Bool) (btime : List Nat) :
    (scanIdx off pE rE now data idxs mask btime).1.filter
      (fun e => decide (e = pE i ∨ e = rE i)) = [] := by
  rw [List.filter_eq_nil_iff]
  intro e he
  obtain ⟨j, hj, hd⟩ := scanIdx_events_mem off pE rE now data idxs mask btime e he
  have hji : j ≠ i := by rintro rfl; exact hni hj
  obtain ⟨h1, h2, h3, h4⟩ := hinj j hj hji
  simp only [decide_eq_true_eq, not_or]
  rcases hd with rfl | rfl
  · exact ⟨h1, h2⟩
  · exact ⟨h3, h4⟩


lemma scanIdx_proj (off : Nat) (pE rE : Nat → Event) (now : Nat) (data : List Nat)
    (idxs : List Nat) (i : Nat) (hnd : idxs.Nodup)
    (hinj : ∀ j ∈ idxs, j ≠ i → pE j ≠ pE i ∧ pE j ≠ rE i ∧ rE j ≠ pE i ∧ rE j ≠ rE i) :
    ∀ (mask : List Bool) (btime : List Nat), (∀ j ∈ idxs, j < mask.length) →
    ((scanIdx off pE rE now data idxs mask btime).1.filter
        (fun e => decide (e = pE i ∨ e = rE i)) = [] ∧
      (scanIdx off pE rE now data idxs mask btime).2.1.getD i false = mask.getD i false) ∨
    ((scanIdx off pE rE now data idxs mask btime).1.filter
        (fun e => decide (e = pE i ∨ e = rE i)) = [pE i] ∧
      mask.getD i false = false ∧
      (scanIdx off pE rE now data idxs mask btime).2.1.getD i false = true) ∨
    ((scanIdx off pE rE now data idxs mask btime).1.filter
        (fun e => decide (e = pE i ∨ e = rE i)) = [rE i] ∧
      mask.getD i false = true ∧
      (scanIdx off pE rE now data idxs mask btime).2.1.getD i false = false) := by
  induction idxs with
  | nil => intro mask btime hlen; left; exact ⟨rfl, rfl⟩
  | cons j rest ih =>
    intro mask btime hlen
    have hndr : rest.Nodup := (List.nodup_cons.mp hnd).2
    have hinjr : ∀ j' ∈ rest, j' ≠ i →
        pE j' ≠ pE i ∧ pE j' ≠ rE i ∧ rE j' ≠ pE i ∧ rE j' ≠ rE i :=
      fun j' hj' => hinj j' (by simp [hj'])
    by_cases hji : j = i
    · subst hji
      have hjr : j ∉ rest := (List.nodup_cons.mp hnd).1
      have hjlen : j < mask.length := hlen j (by simp)
      by_cases hb : data.getD (off + j) 0 = 1
      · by_cases hg : btime.getD j 0 + 100 < now
        · by_cases hm : mask.getD j false = true
          · -- latched, gate open: no event, mask stays true
            simp only [scanIdx, if_pos hb, if_pos hg, if_pos hm]
            left
            refine ⟨scanIdx_absent off pE rE now data rest j hjr hinjr _ _, ?_⟩
            rw [(scanIdx_state_not_mem off pE rE now data rest j hjr _ _).1,
              getD_set_self _ _ _ _ hjlen, hm]
          · -- not latched, gate open: press event, mask set true
            simp only [scanIdx, if_pos hb, if_pos hg, if_neg hm]
            right; left
            refine ⟨?_, by simpa using hm, ?_⟩
            · rw [List.filter_cons_of_pos (by simp)]
              rw [scanIdx_absent off pE rE now data rest j hjr hinjr _ _]
            · rw [(scanIdx_state_not_mem off pE rE now data rest j hjr _ _).1,
                getD_set_self _ _ _ _ hjlen]
        · -- debounce gate closed: nothing happens at j
          simp only [scanIdx, if_pos hb, if_neg hg]
          left
          exact ⟨scanIdx_absent off pE rE now data rest j hjr hinjr _ _,
            (scanIdx_state_not_mem off pE rE now data rest j hjr _ _).1⟩
      · by_cases hm : mask.getD j false = true
        · -- release
          simp only [scanIdx, if_neg hb, if_pos hm]
          right; right
          refine ⟨?_, hm, ?_⟩
          · rw [List.filter_cons_of_pos (by simp)]
            rw [scanIdx_absent off pE rE now data rest j hjr hinjr _ _]
          · rw [(scanIdx_state_not_mem off pE rE now data rest j hjr _ _).1,
              getD_set_self _ _ _ _ hjlen]
        · -- idle
          simp only [scanIdx, if_neg hb, if_neg hm]
          left
          exact ⟨scanIdx_absent off pE rE now data rest j hjr hinjr _ _,
            (scanIdx_state_not_mem off pE rE now data rest j hjr _ _).1⟩
    · -- head index differs from i: its step never touches i
      have hjlenr : ∀ v, ∀ j' ∈ rest, j' < (mask.set j v).length := by
        intro v j' hj'
        rw [List.length_set]; exact hlen j' (by simp [hj'])
      have hlenr : ∀ j' ∈ rest, j' < mask.length := fun j' hj' => hlen j' (by simp [hj'])
      obtain ⟨hpne, _, hrne, _⟩ := hinj j (by simp) hji
      have hsetne : ∀ v, (mask.set j v).getD i false = mask.getD i false :=
        fun v => getD_set_ne _ _ _ _ _ hji
      by_cases hb : data.getD (off + j) 0 = 1
      · by_cases hg : btime.getD j 0 + 100 < now
        · by_cases hm : mask.getD j false = true
          · simp only [scanIdx, if_pos hb, if_pos hg, if_pos hm]
            rcases ih hndr hinjr (mask.set j true) btime (hjlenr true) with
              ⟨hw, hs⟩ | ⟨hw, hm0, hs⟩ | ⟨hw, hm1, hs⟩
            · left; exact ⟨hw, by rw [hs, hsetne]⟩
            · right; left; exact ⟨hw, by rw [← hsetne true]; exact hm0, hs⟩
            · right; right; exact ⟨hw, by rw [← hsetne true]; exact hm1, hs⟩
          · simp only [scanIdx, if_pos hb, if_pos hg, if_neg hm]
            have hfcons : ∀ l : List Event,
                (pE j :: l).filter (fun e => decide (e = pE i ∨ e = rE i)) =
                l.filter (fun e => decide (e = pE i ∨ e = rE i)) :=
              fun l => List.filter_cons_of_neg (by simp [hpne, hinj j (by simp) hji])
            rcases ih hndr hinjr (mask.set j true) (btime.set j now) (hjlenr true) with
              ⟨hw, hs⟩ | ⟨hw, hm0, hs⟩ | ⟨hw, hm1, hs⟩
            · left; exact ⟨by rw [hfcons, hw], by rw [hs, hsetne]⟩
            · right; left; exact ⟨by rw [hfcons, hw], by rw [← hsetne true]; exact hm0, hs⟩
            · right; right; exact ⟨by rw [hfcons, hw], by rw [← hsetne true]; exact hm1, hs⟩
        · simp only [scanIdx, if_pos hb, if_neg hg]
          exact ih hndr hinjr mask btime hlenr
      · by_cases hm : mask.getD j false = true
        · simp only [scanIdx, if_neg hb, if_pos hm]
          have hfcons : ∀ l : List Event,
              (rE j :: l).filter (fun e => decide (e = pE i ∨ e = rE i)) =
              l.filter (fun e => decide (e = pE i ∨ e = rE i)) :=
            fun l => List.filter_cons_of_neg (by simp [hrne, hinj j (by simp) hji])
          rcases ih hndr hinjr (mask.set j false) btime (hjlenr false) with
            ⟨hw, hs⟩ | ⟨hw, hm0, hs⟩ | ⟨hw, hm1, hs⟩
          · left; exact ⟨by rw [hfcons, hw], by rw [hs, hsetne]⟩
          · right; left; exact ⟨by rw [hfcons, hw], by rw [← hsetne false]; exact hm0, hs⟩
          · right; right; exact ⟨by rw [hfcons, hw], by rw [← hsetne false]; exact hm1, hs⟩
        · simp only [scanIdx, if_neg hb, if_neg hm]
          exact ih hndr hinjr mask btime hlenr


lemma scanIdx_append_noop (off : Nat) (pE rE : Nat → Event) (now : Nat) (data : List Nat)
    (l1 l2 : List Nat) (mask : List Bool) (btime : List Nat)
    (h : ∀ j ∈ l1, data.getD (off + j) 0 ≠ 1 ∧ mask.getD j false = false) :
    scanIdx off pE rE now data (l1 ++ l2) mask btime =
    scanIdx off pE rE now data l2 mask btime := by
  induction l1 with
  | nil => rfl
  | cons i rest ih =>
    obtain ⟨hb, hm⟩ := h i (by simp)
    simp only [List.cons_append, scanIdx, if_neg hb, hm]
    simp only [Bool.false_eq_true, if_false]
    exact ih fun j hj => h j (by simp [hj])

lemma range_split_at (i n : Nat) (h : i < n) :
    List.range n = List.range' 0 i ++ (i :: List.range' (i + 1) (n - i - 1)) := by
  rw [List.range_eq_range']
  rw [show n = (n - i - 1 + 1) + i by omega]
  rw [← List.range'_append 0 i (n - i - 1 + 1) 1]
  simp [List.range'_succ]

lemma getD_replicate_lt {α : Type} (n j : Nat) (a d : α) (h : j < n) :
    (List.replicate n a).getD j d = a := by
  simp [List.getD, List.getElem?_replicate, h]

lemma getD_replicate {α : Type} (n j : Nat) (a : α) :
    (List.replicate n a).getD j a = a := by
  rcases lt_or_ge j n with h | h
  · exact getD_replicate_lt n j a a h
  · exact List.getD_eq_default _ _ (by simpa using h)

lemma mkReport_getD (pos b j : Nat) (hj : j < 1024) :
    (mkReport pos b).getD j 0 = if j = 0 then 1 else if j = pos then b else 0 := by
  simp [mkReport, List.getD, List.getElem?_map, List.getElem?_range hj]

/-- A scan over `range n` in which only index `i` can have state byte 1 and
every other index is unlatched reduces to the single step at `i`. -/
lemma scanIdx_single (off : Nat) (pE rE : Nat → Event) (now : Nat) (data : List Nat)
    (n i : Nat) (mask : List Bool) (btime : List Nat) (hi : i < n)
    (hb0 : ∀ j, j < n → j ≠ i → data.getD (off + j) 0 ≠ 1)
    (hm0 : ∀ j, j < n → j ≠ i → mask.getD j false = false) :
    scanIdx off pE rE now data (List.range n) mask btime =
      (if data.getD (off + i) 0 = 1 then
        (if btime.getD i 0 + 100 < now then
          (if mask.getD i false then ([], mask.set i true, btime)
           else ([pE i], mask.set i true, btime.set i now))
         else ([], mask, btime))
       else
        (if mask.getD i false then ([rE i], mask.set i false, btime)
         else ([], mask, btime))) := by
  have hmem1 : ∀ j ∈ List.range' 0 i, j < n ∧ j ≠ i := by
    intro j hj
    rw [List.mem_range'] at hj
    obtain ⟨k, hk, rfl⟩ := hj
    omega
  have hmem2 : ∀ j ∈ List.range' (i + 1) (n - i - 1), j < n ∧ j ≠ i := by
    intro j hj
    rw [List.mem_range'] at hj
    obtain ⟨k, hk, rfl⟩ := hj
    omega
  rw [range_split_at i n hi,
    scanIdx_append_noop off pE rE now data _ _ mask btime
      (fun j hj => ⟨hb0 j (hmem1 j hj).1 (hmem1 j hj).2, hm0 j (hmem1 j hj).1 (hmem1 j hj).2⟩)]
  by_cases hb : data.getD (off + i) 0 = 1
  · by_cases hg : btime.getD i 0 + 100 < now
    · by_cases hm : mask.getD i false = true
      · simp only [scanIdx, if_pos hb, if_pos hg, if_pos hm, hm, if_true]
        rw [scanIdx_noop off pE rE now data _ _ _
          (fun j hj => ⟨hb0 j (hmem2 j hj).1 (hmem2 j hj).2,
            by rw [getD_set_ne _ _ _ _ _ (Ne.symm (hmem2 j hj).2)]
               exact hm0 j (hmem2 j hj).1 (hmem2 j hj).2⟩)]
      · simp only [scanIdx, if_pos hb, if_pos hg, if_neg hm, hm, Bool.false_eq_true, if_false]
        rw [scanIdx_noop off pE rE now data _ _ _
          (fun j hj => ⟨hb0 j (hmem2 j hj).1 (hmem2 j hj).2,
            by rw [getD_set_ne _ _ _ _ _ (Ne.symm (hmem2 j hj).2)]
               exact hm0 j (hmem2 j hj).1 (hmem2 j hj).2⟩)]
    · simp only [scanIdx, if_pos hb, if_neg hg]
      rw [scanIdx_noop off pE rE now data _ _ _
        (fun j hj => ⟨hb0 j (hmem2 j hj).1 (hmem2 j hj).2,
          hm0 j (hmem2 j hj).1 (hmem2 j hj).2⟩)]
  · by_cases hm : mask.getD i false = true
    · simp only [scanIdx, if_neg hb, if_pos hm, hm, if_true]
      rw [scanIdx_noop off pE rE now data _ _ _
        (fun j hj => ⟨hb0 j (hmem2 j hj).1 (hmem2 j hj).2,
          by rw [getD_set_ne _ _ _ _ _ (Ne.symm (hmem2 j hj).2)]
             exact hm0 j (hmem2 j hj).1 (hmem2 j hj).2⟩)]
    · simp only [scanIdx, if_neg hb, if_neg hm, hm, Bool.false_eq_true, if_false]
      rw [scanIdx_noop off pE rE now data _ _ _
        (fun j hj => ⟨hb0 j (hmem2 j hj).1 (hmem2 j hj).2,
          hm0 j (hmem2 j hj).1 (hmem2 j hj).2⟩)]


lemma processReport_legacy (d : DeviceType) (s : ListenerState) (now : Nat)
    (data : List Nat) (writeOk : Bool)
    (h1 : d.name ≠ "Streamdeck Plus") (h2 : d.name ≠ "Streamdeck Studio")
    (h0 : data.getD 0 0 = 1) :
    processReport d s now data writeOk =
      ((scanIdx d.buttonReadOffset (fun i => Event.press (mapButtonOut d i))
          (fun i => Event.release (mapButtonOut d i)) now data
          (List.range d.numberOfButtons) s.buttonMask s.buttonTime).1,
        { s with
          buttonMask := (scanIdx d.buttonReadOffset (fun i => Event.press (mapButtonOut d i))
            (fun i => Event.release (mapButtonOut d i)) now data
            (List.range d.numberOfButtons) s.buttonMask s.buttonTime).2.1,
          buttonTime := (scanIdx d.buttonReadOffset (fun i => Event.press (mapButtonOut d i))
            (fun i => Event.release (mapButtonOut d i)) now data
            (List.range d.numberOfButtons) s.buttonMask s.buttonTime).2.2 }) := by
  rw [processReport, if_pos h0, if_neg (by tauto)]

lemma mapButtonOut_nil (d : DeviceType) (hmap : d.buttonMap = []) (i : Nat) :
    mapButtonOut d i = Int.ofNat i := by
  simp [mapButtonOut, hmap, List.lookup]


section LegacySteps

variable (d : DeviceType) (s : ListenerState) (now : Nat) (i : Nat)

lemma mkReport_getD_zero (pos b : Nat) : (mkReport pos b).getD 0 0 = 1 := by
  rw [mkReport_getD pos b 0 (by omega), if_pos rfl]

lemma mkReport_getD_active (pos b : Nat) (h : pos ≠ 0) (hlt : pos < 1024) :
    (mkReport pos b).getD pos 0 = b := by
  rw [mkReport_getD pos b pos hlt, if_neg h, if_pos rfl]

lemma processReport_press_step
    (h1 : d.name ≠ "Streamdeck Plus") (h2 : d.name ≠ "Streamdeck Studio")
    (hi : i < d.numberOfButtons) (hoff : 0 < d.buttonReadOffset)
    (hsz : d.buttonReadOffset + d.numberOfButtons ≤ 1024)
    (hm0 : ∀ j, j < d.numberOfButtons → j ≠ i → s.buttonMask.getD j false = false)
    (hgate : s.buttonTime.getD i 0 + 100 < now)
    (hmi : s.buttonMask.getD i false = false) (wOk : Bool) :
    processReport d s now (mkReport (d.buttonReadOffset + i) 1) wOk =
      ([Event.press (mapButtonOut d i)],
       { s with buttonMask := s.buttonMask.set i true,
                buttonTime := s.buttonTime.set i now }) := by
  rw [processReport_legacy d s now _ wOk h1 h2 (mkReport_getD_zero _ _),
    scanIdx_single _ _ _ _ _ _ i _ _ hi
      (fun j hj hne => by rw [mkReport_getD _ _ _ (by omega), if_neg (by omega), if_neg (by omega)]; omega)
      (fun j hj hne => hm0 j hj hne),
    if_pos (by rw [mkReport_getD_active _ _ (by omega) (by omega)]),
    if_pos hgate, if_neg (by rw [hmi]; exact Bool.false_ne_true)]

lemma processReport_release_step
    (h1 : d.name ≠ "Streamdeck Plus") (h2 : d.name ≠ "Streamdeck Studio")
    (hi : i < d.numberOfButtons) (hoff : 0 < d.buttonReadOffset)
    (hsz : d.buttonReadOffset + d.numberOfButtons ≤ 1024)
    (hm0 : ∀ j, j < d.numberOfButtons → j ≠ i → s.buttonMask.getD j false = false)
    (hmi : s.buttonMask.getD i false = true) (wOk : Bool) :
    processReport d s now (mkReport (d.buttonReadOffset + i) 0) wOk =
      ([Event.release (mapButtonOut d i)],
       { s with buttonMask := s.buttonMask.set i false }) := by
  rw [processReport_legacy d s now _ wOk h1 h2 (mkReport_getD_zero _ _),
    scanIdx_single _ _ _ _ _ _ i _ _ hi
      (fun j hj hne => by rw [mkReport_getD _ _ _ (by omega), if_neg (by omega), if_neg (by omega)]; omega)
      (fun j hj hne => hm0 j hj hne),
    if_neg (by rw [mkReport_getD_active _ _ (by omega) (by omega)]; omega),
    if_pos hmi]

lemma processReport_suppressed_step
    (h1 : d.name ≠ "Streamdeck Plus") (h2 : d.name ≠ "Streamdeck Studio")
    (hi : i < d.numberOfButtons) (hoff : 0 < d.buttonReadOffset)
    (hsz : d.buttonReadOffset + d.numberOfButtons ≤ 1024)
    (hm0 : ∀ j, j < d.numberOfButtons → j ≠ i → s.buttonMask.getD j false = false)
    (hgate : ¬ (s.buttonTime.getD i 0 + 100 < now)) (wOk : Bool) :
    processReport d s now (mkReport (d.buttonReadOffset + i) 1) wOk = ([], s) := by
  rw [processReport_legacy d s now _ wOk h1 h2 (mkReport_getD_zero _ _),
    scanIdx_single _ _ _ _ _ _ i _ _ hi
      (fun j hj hne => by rw [mkReport_getD _ _ _ (by omega), if_neg (by omega), if_neg (by omega)]; omega)
      (fun j hj hne => hm0 j hj hne),
    if_pos (by rw [mkReport_getD_active _ _ (by omega) (by omega)]),
    if_neg hgate]

end LegacySteps


/-- C4 (amended): on a legacy-family device, provided the first 0→1
transition arrives more than 100 ms after the decoder loop starts (the
per-button debounce timers are initialized to the loop start time), a 0→1
then 1→0 transition sequence yields exactly one press then one release, and
a further 0→1 transition within 100 ms of the emitted press yields no
additional press event. -/
theorem press_release_debounce_amended (d : DeviceType)
    (h1 : d.name ≠ "Streamdeck Plus") (h2 : d.name ≠ "Streamdeck Studio")
    (i : Nat) (hi : i < d.numberOfButtons) (hoff : 0 < d.buttonReadOffset)
    (hsz : d.buttonReadOffset + d.numberOfButtons ≤ 1024)
    (t0 t1 t2 t3 : Nat) (hstart : t0 + 100 < t1) :
    (t1 + 100 ≤ t2 →
      eventListener d t0
        [ReadOutcome.frame t1 (mkReport (d.buttonReadOffset + i) 1) true,
         ReadOutcome.frame t2 (mkReport (d.buttonReadOffset + i) 0) true] =
      [Event.press (mapButtonOut d i), Event.release (mapButtonOut d i)]) ∧
    (t1 ≤ t2 → t2 ≤ t3 → t3 ≤ t1 + 100 →
      eventListener d t0
        [ReadOutcome.frame t1 (mkReport (d.buttonReadOffset + i) 1) true,
         ReadOutcome.frame t2 (mkReport (d.buttonReadOffset + i) 0) true,
         ReadOutcome.frame t3 (mkReport (d.buttonReadOffset + i) 1) true] =
      [Event.press (mapButtonOut d i), Event.release (mapButtonOut d i)]) := by
  have hbm : (initState d t0).buttonMask = List.replicate d.numberOfButtons false := rfl
  have hbt : (initState d t0).buttonTime = List.replicate d.numberOfButtons t0 := rfl
  have hpress := processReport_press_step d (initState d t0) t1 i h1 h2 hi hoff hsz
    (fun j _ _ => getD_replicate _ _ _)
    (by rw [hbt, getD_replicate_lt _ _ _ _ hi]; omega)
    (getD_replicate _ _ _) true
  set s1 : ListenerState :=
    { initState d t0 with
      buttonMask := (initState d t0).buttonMask.set i true,
      buttonTime := (initState d t0).buttonTime.set i t1 } with hs1
  have hs1m : s1.buttonMask = (List.replicate d.numberOfButtons false).set i true := rfl
  have hs1t : s1.buttonTime = (List.replicate d.numberOfButtons t0).set i t1 := rfl
  have hrelease := processReport_release_step d s1 t2 i h1 h2 hi hoff hsz
    (fun j hj hne => by
      rw [hs1m, getD_set_ne _ _ _ _ _ (Ne.symm hne)]
      exact getD_replicate _ _ _)
    (by rw [hs1m, getD_set_self _ _ _ _ (by rw [List.length_replicate]; exact hi)]) true
  set s2 : ListenerState := { s1 with buttonMask := s1.buttonMask.set i false } with hs2
  have hsupp := fun (hdeb : ¬ (t1 + 100 < t3)) =>
    processReport_suppressed_step d s2 t3 i h1 h2 hi hoff hsz
      (fun j hj hne => by
        rw [hs2]
        show (s1.buttonMask.set i false).getD j false = false
        rw [getD_set_ne _ _ _ _ _ (Ne.symm hne), hs1m,
          getD_set_ne _ _ _ _ _ (Ne.symm hne)]
        exact getD_replicate _ _ _)
      (by
        rw [hs2]
        show ¬ (s1.buttonTime.getD i 0 + 100 < t3)
        rw [hs1t, getD_set_self _ _ _ _ (by rw [List.length_replicate]; exact hi)]
        exact hdeb) true
  constructor
  · intro _
    simp only [eventListener, eventLoop, hpress, hrelease]
    simp
  · intro _ _ hdeb
    simp only [eventListener, eventLoop, hpress, hrelease, hsupp (by omega)]
    simp


lemma scanIdx_congr (off : Nat) (pE rE : Nat → Event) (now : Nat) (d1 d2 : List Nat)
    (idxs : List Nat) : ∀ (mask : List Bool) (btime : List Nat),
    (∀ j ∈ idxs, d1.getD (off + j) 0 = d2.getD (off + j) 0) →
    scanIdx off pE rE now d1 idxs mask btime = scanIdx off pE rE now d2 idxs mask btime := by
  induction idxs with
  | nil => intro mask btime _; rfl
  | cons i rest ih =>
    intro mask btime h
    have hi := h i (by simp)
    have hrest : ∀ j ∈ rest, d1.getD (off + j) 0 = d2.getD (off + j) 0 :=
      fun j hj => h j (by simp [hj])
    simp only [scanIdx, hi]
    by_cases hb : d2.getD (off + i) 0 = 1
    · rw [if_pos hb, if_pos hb]
      by_cases hg : btime.getD i 0 + 100 < now
      · rw [if_pos hg, if_pos hg]
        by_cases hm : mask.getD i false = true
        · rw [if_pos hm, if_pos hm, ih _ _ hrest]
        · rw [if_neg hm, if_neg hm, ih _ _ hrest]
      · rw [if_neg hg, if_neg hg]
        exact ih _ _ hrest
    · rw [if_neg hb, if_neg hb]
      by_cases hm : mask.getD i false = true
      · rw [if_pos hm, if_pos hm, ih _ _ hrest]
      · rw [if_neg hm, if_neg hm]
        exact ih _ _ hrest


/-! ## Claim C7 — which report bytes the legacy decoder reads -/

/-- C7 (counterexample): the claim "the decoder ignores report byte 0" is
false: the decoder processes a report only when byte 0 equals 1.  Two reports
that differ only in byte 0 (one has 1, the other 0, all other 1024 bytes
equal, with a pressed button byte) produce different events and different
debounce state on the Streamdeck Neo. -/
theorem byte0_not_ignored_counterexample :
    (processReport neoDevice (initState neoDevice 0) 200 (mkReport 4 1) true).1 =
      [Event.press 0] ∧
    (processReport neoDevice (initState neoDevice 0) 200 ((mkReport 4 1).set 0 0) true).1 =
      [] ∧
    (processReport neoDevice (initState neoDevice 0) 200 (mkReport 4 1) true).2 ≠
    (processReport neoDevice (initState neoDevice 0) 200 ((mkReport 4 1).set 0 0) true).2 := by
  refine ⟨by rfl, by rfl, by decide⟩

/-- C7 (amended): for a legacy-family device the decoder's output depends on
an inbound report only through the byte-0 gate (`report[0] == 1`) and the
button state bytes `report[buttonReadOffset + i]` for `i < numberOfButtons`:
two reports that agree on whether byte 0 equals 1 and agree on all button
state bytes produce the same events and the same decoder state, from any
decoder state. -/
theorem legacy_reads_only_gate_and_button_bytes (d : DeviceType)
    (h1 : d.name ≠ "Streamdeck Plus") (h2 : d.name ≠ "Streamdeck Studio")
    (s : ListenerState) (now : Nat) (r1 r2 : List Nat) (wOk : Bool)
    (hgate : r1.getD 0 0 = 1 ↔ r2.getD 0 0 = 1)
    (hagree : ∀ j, j < d.numberOfButtons →
      r1.getD (d.buttonReadOffset + j) 0 = r2.getD (d.buttonReadOffset + j) 0) :
    processReport d s now r1 wOk = processReport d s now r2 wOk := by
  by_cases hg : r1.getD 0 0 = 1
  · rw [processReport_legacy d s now r1 wOk h1 h2 hg,
      processReport_legacy d s now r2 wOk h1 h2 (hgate.mp hg),
      scanIdx_congr _ _ _ _ r1 r2 _ _ _
        (fun j hj => hagree j (List.mem_range.mp hj))]
  · rw [processReport, if_neg hg, processReport, if_neg (fun hh => hg (hgate.mpr hh))]

/-- C7 (witness): two concrete Neo reports agreeing on the gate byte and all
button bytes but differing at byte 900 decode identically. -/
theorem legacy_reads_only_gate_and_button_bytes_witness :
    neoDevice.name ≠ "Streamdeck Plus" ∧
    (∀ j, j < neoDevice.numberOfButtons →
      (mkReport 4 1).getD (neoDevice.buttonReadOffset + j) 0 =
      ((mkReport 4 1).set 900 7).getD (neoDevice.buttonReadOffset + j) 0) ∧
    processReport neoDevice (initState neoDevice 0) 200 (mkReport 4 1) true =
      processReport neoDevice (initState neoDevice 0) 200 ((mkReport 4 1).set 900 7) true :=
  ⟨by decide, by decide,
   legacy_reads_only_gate_and_button_bytes neoDevice (by decide) (by decide)
     (initState neoDevice 0) 200 (mkReport 4 1) ((mkReport 4 1).set 900 7) true
     (by constructor <;> (intro h; rfl)) (by decide)⟩


/-! ## Claim C4 — legacy press/release with debounce -/

/-- C4 (counterexample): a 0→1 transition at t=50ms followed by a 1→0
transition at t=200ms (150 ms apart, satisfying the claim's "at least 100ms
between transitions") yields NO events on the Streamdeck Neo: the per-button
debounce timers are initialized to the loop start time (t=0 here), so the
first press, arriving within 100ms of startup, is suppressed, and the
suppressed press latches nothing, so the release is dropped too. -/
theorem press_release_initial_debounce_counterexample :
    eventListener neoDevice 0
      [ReadOutcome.frame 50 (mkReport 4 1) true,
       ReadOutcome.frame 200 (mkReport 4 0) true] = [] := by rfl

/-- C4 (witness): the amended debounce theorem at the Streamdeck Neo, button
0, loop start t=0, press transition at t=150, release at t=250, re-press at
t=250 (within 100ms of the press). -/
theorem press_release_debounce_witness :
    0 + 100 < 150 ∧
    ((150 + 100 ≤ 250 →
      eventListener neoDevice 0
        [ReadOutcome.frame 150 (mkReport (neoDevice.buttonReadOffset + 0) 1) true,
         ReadOutcome.frame 250 (mkReport (neoDevice.buttonReadOffset + 0) 0) true] =
      [Event.press (mapButtonOut neoDevice 0), Event.release (mapButtonOut neoDevice 0)]) ∧
    (150 ≤ 250 → 250 ≤ 250 → 250 ≤ 150 + 100 →
      eventListener neoDevice 0
        [ReadOutcome.frame 150 (mkReport (neoDevice.buttonReadOffset + 0) 1) true,
         ReadOutcome.frame 250 (mkReport (neoDevice.buttonReadOffset + 0) 0) true,
         ReadOutcome.frame 250 (mkReport (neoDevice.buttonReadOffset + 0) 1) true] =
      [Event.press (mapButtonOut neoDevice 0), Event.release (mapButtonOut neoDevice 0)])) :=
  ⟨by omega,
   press_release_debounce_amended neoDevice (by decide) (by decide) 0 (by decide)
     (by decide) (by decide) 0 150 250 250 (by omega)⟩


/-! ## Claim C6 — liveness timestamp -/

/-- C6 (counterexample): the claim "the liveness timestamp is refreshed
whenever a frame is received" is false: processing an ordinary button report
at t=50000ms on the Streamdeck Plus leaves `lastIncomingDataTime` at its
initial value 0 instead of 50000, and at that point the watchdog condition
`time.Since(last) > 5s` already holds — a steady stream of non-keep-alive
frames does not keep the connection alive. -/
theorem liveness_refresh_counterexample :
    (eventLoop plusDevice (initState plusDevice 0)
      [ReadOutcome.frame 50000 (mkReport 4 1) true]).2.lastIncomingDataTime = 0 ∧
    (0 : Nat) ≠ 50000 ∧
    watchdogShouldClose 0 50000 = true := by
  refine ⟨by rfl, by omega, by rfl⟩

/-- C6 (amended): the decoder refreshes the shared liveness timestamp exactly
when it processes a keep-alive frame (byte 0 = 1, byte 1 = 0x0a, on a device
named "Streamdeck Plus" or "Streamdeck Studio"), setting it to that frame's
receive time; every other frame leaves the timestamp unchanged.  The watchdog,
polling every second, closes the connection when `time.Since` of that
timestamp exceeds 5 seconds (`watchdogShouldClose`). -/
theorem liveness_refresh_amended (d : DeviceType) (s : ListenerState) (now : Nat)
    (data : List Nat) (writeOk : Bool) :
    (processReport d s now data writeOk).2.lastIncomingDataTime =
      if data.getD 0 0 = 1 ∧
          (d.name = "Streamdeck Plus" ∨ d.name = "Streamdeck Studio") ∧
          data.getD 1 0 = 0x0a then now
      else s.lastIncomingDataTime := by
  rw [processReport]
  by_cases hfull : data.getD 0 0 = 1 ∧
      (d.name = "Streamdeck Plus" ∨ d.name = "Streamdeck Studio") ∧
      data.getD 1 0 = 0x0a
  · obtain ⟨h0, hn, hka⟩ := hfull
    rw [if_pos h0, if_pos ⟨hn, by omega⟩, if_pos hka,
      if_pos (show data.getD 0 0 = 1 ∧
        (d.name = "Streamdeck Plus" ∨ d.name = "Streamdeck Studio") ∧
        data.getD 1 0 = 0x0a from ⟨h0, hn, hka⟩)]
    cases writeOk <;> rfl
  · rw [if_neg hfull]
    by_cases h0 : data.getD 0 0 = 1
    · rw [if_pos h0]
      by_cases hsel : (d.name = "Streamdeck Plus" ∨ d.name = "Streamdeck Studio") ∧
          0 < data.getD 1 0
      · rw [if_pos hsel]
        have hka : ¬ data.getD 1 0 = 0x0a := fun hx => hfull ⟨h0, hsel.1, hx⟩
        rw [if_neg hka]
        dsimp only []
        split_ifs <;> rfl
      · rw [if_neg hsel]
    · rw [if_neg h0]


/-! ## Claim C3 — disconnect semantics -/

lemma rotateScan_mem (data : List Nat) (l : List Nat) :
    ∀ e ∈ rotateScan data l, ∃ k δ, e = Event.encoderRotate k δ := by
  induction l with
  | nil => intro e he; simp [rotateScan] at he
  | cons i rest ih =>
    intro e he
    rw [rotateScan] at he
    split at he
    · rename_i h
      simp only [List.mem_cons] at he
      rcases he with rfl | he
      · exact ⟨i, _, rfl⟩
      · exact ih e he
    · exact ih e he

lemma touchEvents_no_disconnect (data : List Nat) :
    Event.disconnect ∉ touchEvents data := by
  rw [touchEvents]
  split_ifs <;> simp

/-- With a succeeding keep-alive reply write, one report never emits the
disconnect event. -/
lemma processReport_no_disconnect (d : DeviceType) (s : ListenerState) (now : Nat)
    (data : List Nat) :
    Event.disconnect ∉ (processReport d s now data true).1 := by
  rw [processReport]
  by_cases h0 : data.getD 0 0 = 1
  swap
  · rw [if_neg h0]; simp
  rw [if_pos h0]
  by_cases hsel : (d.name = "Streamdeck Plus" ∨ d.name = "Streamdeck Studio") ∧
      0 < data.getD 1 0
  swap
  · rw [if_neg hsel]
    intro hmem
    dsimp only [] at hmem
    obtain ⟨j, _, hd⟩ := scanIdx_events_mem d.buttonReadOffset
      (fun i => Event.press (mapButtonOut d i)) (fun i => Event.release (mapButtonOut d i))
      now data (List.range d.numberOfButtons) s.buttonMask s.buttonTime
      Event.disconnect hmem
    rcases hd with hd | hd <;> simp at hd
  rw [if_pos hsel]
  by_cases hka : data.getD 1 0 = 0x0a
  · rw [if_pos hka]
    simp
  rw [if_neg hka]
  by_cases h4 : data.getD 1 0 = 4
  · rw [if_pos h4]
    dsimp only []
    split_ifs <;> simp
  rw [if_neg h4]
  by_cases h2 : data.getD 1 0 = 2
  · rw [if_pos h2]
    exact touchEvents_no_disconnect data
  rw [if_neg h2]
  by_cases h3 : data.getD 1 0 = 3
  swap
  · rw [if_neg h3]; simp
  rw [if_pos h3]
  by_cases he1 : data.getD 4 0 = 1
  · rw [if_pos he1]
    intro hmem
    dsimp only [] at hmem
    obtain ⟨k, δ, he⟩ := rotateScan_mem data (List.range numberOfEncoders)
      Event.disconnect hmem
    simp at he
  rw [if_neg he1]
  by_cases he0 : data.getD 4 0 = 0
  · rw [if_pos he0]
    intro hmem
    dsimp only [] at hmem
    obtain ⟨j, _, hd⟩ := scanIdx_events_mem encoderReadOffset
      (fun i => Event.encoderPush i true) (fun i => Event.encoderPush i false)
      now data (List.range numberOfEncoders) s.encoderButtonMask s.encoderButtonTime
      Event.disconnect hmem
    rcases hd with hd | hd <;> simp at hd
  · rw [if_neg he0]; simp


lemma eventLoop_ok_then_fail (d : DeviceType) (fs : List (Nat × List Nat)) :
    ∀ (s : ListenerState) (rest : List ReadOutcome),
    (eventLoop d s (fs.map (fun p => ReadOutcome.frame p.1 p.2 true) ++
        ReadOutcome.fail :: rest)).1 =
      (eventLoop d s (fs.map (fun p => ReadOutcome.frame p.1 p.2 true))).1 ++
        [Event.disconnect] ∧
    Event.disconnect ∉ (eventLoop d s (fs.map (fun p => ReadOutcome.frame p.1 p.2 true))).1 := by
  induction fs with
  | nil => intro s rest; simp [eventLoop]
  | cons p t ih =>
    intro s rest
    simp only [List.map_cons, List.cons_append, eventLoop, List.append_eq]
    obtain ⟨h1, h2⟩ := ih (processReport d s p.1 p.2 true).2 rest
    constructor
    · rw [h1, List.append_assoc]
    · intro hmem
      rcases List.mem_append.mp hmem with h | h
      · exact processReport_no_disconnect d s p.1 p.2 h
      · exact h2 h

/-- C3 (counterexample): the claim is false for transport WRITE failures.  On
the Streamdeck Plus, a keep-alive frame whose reply write fails emits the
disconnect event, but the Go `break` only leaves the `switch`, not the read
loop, so the loop keeps running: a subsequent button report still emits a
press event after the disconnect event. -/
theorem disconnect_write_failure_counterexample :
    eventListener plusDevice 0
      [ReadOutcome.frame 200 (mkReport 1 0x0a) false,
       ReadOutcome.frame 400 (mkReport 4 1) true] =
      [Event.disconnect, Event.press 0] := by rfl

/-- C3 (amended): a transport READ failure does terminate the loop with
exactly one disconnect event: whatever reports (with succeeding keep-alive
reply writes) precede the failed read, the emitted event sequence ends with
exactly one disconnect event, and any read outcomes after the failure
contribute nothing. -/
theorem disconnect_read_failure_amended (d : DeviceType) (t0 : Nat)
    (fs : List (Nat × List Nat)) (rest : List ReadOutcome) :
    eventListener d t0 (fs.map (fun p => ReadOutcome.frame p.1 p.2 true) ++
        ReadOutcome.fail :: rest) =
      eventListener d t0 (fs.map (fun p => ReadOutcome.frame p.1 p.2 true) ++
        [ReadOutcome.fail]) ∧
    (eventListener d t0 (fs.map (fun p => ReadOutcome.frame p.1 p.2 true) ++
        ReadOutcome.fail :: rest)).count Event.disconnect = 1 ∧
    (eventListener d t0 (fs.map (fun p => ReadOutcome.frame p.1 p.2 true) ++
        ReadOutcome.fail :: rest)).getLast? = some Event.disconnect := by
  obtain ⟨h1, h2⟩ := eventLoop_ok_then_fail d fs (initState d t0) rest
  obtain ⟨h1', _⟩ := eventLoop_ok_then_fail d fs (initState d t0) []
  refine ⟨?_, ?_, ?_⟩
  · rw [eventListener, eventListener, h1, h1']
  · rw [eventListener, h1, List.count_append]
    rw [List.count_eq_zero_of_not_mem h2]
    rfl
  · rw [eventListener, h1]
    exact List.getLast?_concat _


/-! ## Claim C5 — release only after a latched press -/

lemma filter_eq_nil_of_mem_shape (P : Event → Bool) (l : List Event)
    (h : ∀ e ∈ l, P e = false) : l.filter P = [] := by
  rw [List.filter_eq_nil_iff]
  intro a ha
  rw [h a ha]
  exact Bool.false_ne_true

lemma processReport_buttonProj (d : DeviceType) (hmap : d.buttonMap = [])
    (s : ListenerState) (now : Nat) (data : List Nat) (wOk : Bool) (i : Nat)
    (hblen : ∀ j, j < d.numberOfButtons → j < s.buttonMask.length) :
    ((processReport d s now data wOk).1.filter
        (fun e => decide (e = Event.press (Int.ofNat i) ∨ e = Event.release (Int.ofNat i))) = [] ∧
      (processReport d s now data wOk).2.buttonMask.getD i false = s.buttonMask.getD i false) ∨
    ((processReport d s now data wOk).1.filter
        (fun e => decide (e = Event.press (Int.ofNat i) ∨ e = Event.release (Int.ofNat i))) =
        [Event.press (Int.ofNat i)] ∧
      s.buttonMask.getD i false = false ∧
      (processReport d s now data wOk).2.buttonMask.getD i false = true) ∨
    ((processReport d s now data wOk).1.filter
        (fun e => decide (e = Event.press (Int.ofNat i) ∨ e = Event.release (Int.ofNat i))) =
        [Event.release (Int.ofNat i)] ∧
      s.buttonMask.getD i false = true ∧
      (processReport d s now data wOk).2.buttonMask.getD i false = false) := by
  rw [processReport]
  by_cases h0 : data.getD 0 0 = 1
  swap
  · rw [if_neg h0]; left; exact ⟨rfl, rfl⟩
  rw [if_pos h0]
  by_cases hsel : (d.name = "Streamdeck Plus" ∨ d.name = "Streamdeck Studio") ∧
      0 < data.getD 1 0
  swap
  · -- standard button scan
    rw [if_neg hsel]
    dsimp only []
    simp only [mapButtonOut_nil d hmap]
    have := scanIdx_proj d.buttonReadOffset
      (fun k => Event.press (Int.ofNat k)) (fun k => Event.release (Int.ofNat k))
      now data (List.range d.numberOfButtons) i (List.nodup_range _)
      (by
        intro j _ hne
        refine ⟨?_, ?_, ?_, ?_⟩ <;> intro h <;> simp at h <;> omega)
      s.buttonMask s.buttonTime
      (fun j hj => hblen j (List.mem_range.mp hj))
    exact this
  rw [if_pos hsel]
  by_cases hka : data.getD 1 0 = 0x0a
  · rw [if_pos hka]
    dsimp only []
    cases wOk
    · rw [if_neg Bool.false_ne_true]
      left
      exact ⟨by rw [List.filter_cons_of_neg (by simp), List.filter_nil], rfl⟩
    · rw [if_pos rfl]
      left
      exact ⟨rfl, rfl⟩
  rw [if_neg hka]
  by_cases h4 : data.getD 1 0 = 4
  · rw [if_pos h4]
    dsimp only []
    split_ifs
    · left
      exact ⟨by rw [List.filter_cons_of_neg (by simp), List.filter_nil], rfl⟩
    · left; exact ⟨rfl, rfl⟩
  rw [if_neg h4]
  by_cases h2 : data.getD 1 0 = 2
  · rw [if_pos h2]
    left
    refine ⟨?_, rfl⟩
    rw [touchEvents]
    split_ifs <;> simp
  rw [if_neg h2]
  by_cases h3 : data.getD 1 0 = 3
  swap
  · rw [if_neg h3]; left; exact ⟨rfl, rfl⟩
  rw [if_pos h3]
  by_cases he1 : data.getD 4 0 = 1
  · rw [if_pos he1]
    left
    refine ⟨?_, rfl⟩
    refine filter_eq_nil_of_mem_shape _ _ (fun e he => ?_)
    obtain ⟨k, δ, rfl⟩ := rotateScan_mem data (List.range numberOfEncoders) e he
    simp
  rw [if_neg he1]
  by_cases he0 : data.getD 4 0 = 0
  · rw [if_pos he0]
    dsimp only []
    left
    refine ⟨?_, rfl⟩
    refine filter_eq_nil_of_mem_shape _ _ (fun e he => ?_)
    obtain ⟨k, _, hd⟩ := scanIdx_events_mem encoderReadOffset
      (fun k => Event.encoderPush k true) (fun k => Event.encoderPush k false)
      now data (List.range numberOfEncoders) s.encoderButtonMask s.encoderButtonTime e he
    rcases hd with rfl | rfl <;> simp
  · rw [if_neg he0]; left; exact ⟨rfl, rfl⟩


lemma processReport_encoderProj (d : DeviceType)
    (s : ListenerState) (now : Nat) (data : List Nat) (wOk : Bool) (i : Nat)
    (helen : ∀ j, j < numberOfEncoders → j < s.encoderButtonMask.length) :
    ((processReport d s now data wOk).1.filter
        (fun e => decide (e = Event.encoderPush i true ∨ e = Event.encoderPush i false)) = [] ∧
      (processReport d s now data wOk).2.encoderButtonMask.getD i false =
        s.encoderButtonMask.getD i false) ∨
    ((processReport d s now data wOk).1.filter
        (fun e => decide (e = Event.encoderPush i true ∨ e = Event.encoderPush i false)) =
        [Event.encoderPush i true] ∧
      s.encoderButtonMask.getD i false = false ∧
      (processReport d s now data wOk).2.encoderButtonMask.getD i false = true) ∨
    ((processReport d s now data wOk).1.filter
        (fun e => decide (e = Event.encoderPush i true ∨ e = Event.encoderPush i false)) =
        [Event.encoderPush i false] ∧
      s.encoderButtonMask.getD i false = true ∧
      (processReport d s now data wOk).2.encoderButtonMask.getD i false = false) := by
  rw [processReport]
  by_cases h0 : data.getD 0 0 = 1
  swap
  · rw [if_neg h0]; left; exact ⟨rfl, rfl⟩
  rw [if_pos h0]
  by_cases hsel : (d.name = "Streamdeck Plus" ∨ d.name = "Streamdeck Studio") ∧
      0 < data.getD 1 0
  swap
  · rw [if_neg hsel]
    dsimp only []
    left
    refine ⟨?_, rfl⟩
    refine filter_eq_nil_of_mem_shape _ _ (fun e he => ?_)
    obtain ⟨k, _, hd⟩ := scanIdx_events_mem d.buttonReadOffset
      (fun k => Event.press (mapButtonOut d k)) (fun k => Event.release (mapButtonOut d k))
      now data (List.range d.numberOfButtons) s.buttonMask s.buttonTime e he
    rcases hd with rfl | rfl <;> simp
  rw [if_pos hsel]
  by_cases hka : data.getD 1 0 = 0x0a
  · rw [if_pos hka]
    dsimp only []
    cases wOk
    · rw [if_neg Bool.false_ne_true]
      left
      exact ⟨by rw [List.filter_cons_of_neg (by simp), List.filter_nil], rfl⟩
    · rw [if_pos rfl]
      left
      exact ⟨rfl, rfl⟩
  rw [if_neg hka]
  by_cases h4 : data.getD 1 0 = 4
  · rw [if_pos h4]
    dsimp only []
    split_ifs
    · left
      exact ⟨by rw [List.filter_cons_of_neg (by simp), List.filter_nil], rfl⟩
    · left; exact ⟨rfl, rfl⟩
  rw [if_neg h4]
  by_cases h2 : data.getD 1 0 = 2
  · rw [if_pos h2]
    left
    refine ⟨?_, rfl⟩
    rw [touchEvents]
    split_ifs <;> simp
  rw [if_neg h2]
  by_cases h3 : data.getD 1 0 = 3
  swap
  · rw [if_neg h3]; left; exact ⟨rfl, rfl⟩
  rw [if_pos h3]
  by_cases he1 : data.getD 4 0 = 1
  · rw [if_pos he1]
    left
    refine ⟨?_, rfl⟩
    refine filter_eq_nil_of_mem_shape _ _ (fun e he => ?_)
    obtain ⟨k, δ, rfl⟩ := rotateScan_mem data (List.range numberOfEncoders) e he
    simp
  rw [if_neg he1]
  by_cases he0 : data.getD 4 0 = 0
  · rw [if_pos he0]
    dsimp only []
    have := scanIdx_proj encoderReadOffset
      (fun k => Event.encoderPush k true) (fun k => Event.encoderPush k false)
      now data (List.range numberOfEncoders) i (List.nodup_range _)
      (by
        intro j _ hne
        refine ⟨?_, ?_, ?_, ?_⟩ <;> intro h <;> simp at h <;> omega)
      s.encoderButtonMask s.encoderButtonTime
      (fun j hj => helen j (List.mem_range.mp hj))
    exact this
  · rw [if_neg he0]; left; exact ⟨rfl, rfl⟩


lemma processReport_buttonMask_length (d : DeviceType) (s : ListenerState) (now : Nat)
    (data : List Nat) (wOk : Bool) :
    (processReport d s now data wOk).2.buttonMask.length = s.buttonMask.length := by
  rw [processReport]
  split_ifs <;> dsimp only [] <;>
    first
      | rfl
      | (split_ifs <;> rfl)
      | exact scanIdx_mask_length _ _ _ _ _ _ _ _

lemma processReport_encoderMask_length (d : DeviceType) (s : ListenerState) (now : Nat)
    (data : List Nat) (wOk : Bool) :
    (processReport d s now data wOk).2.encoderButtonMask.length =
      s.encoderButtonMask.length := by
  rw [processReport]
  split_ifs <;> dsimp only [] <;>
    first
      | rfl
      | (split_ifs <;> rfl)
      | exact scanIdx_mask_length _ _ _ _ _ _ _ _

lemma altFrom_false_cons (p r e : Event) (w : List Event) :
    altFrom p r false (e :: w) = (decide (e = p) && altFrom p r true w) := rfl

lemma altFrom_true_cons (p r e : Event) (w : List Event) :
    altFrom p r true (e :: w) = (decide (e = r) && altFrom p r false w) := rfl

lemma altFrom_nil (p r : Event) (b : Bool) : altFrom p r b [] = true := by
  cases b <;> rfl

lemma eventLoop_button_altFrom (d : DeviceType) (hmap : d.buttonMap = []) (i : Nat)
    (reads : List ReadOutcome) :
    ∀ s : ListenerState, (∀ j, j < d.numberOfButtons → j < s.buttonMask.length) →
    altFrom (Event.press (Int.ofNat i)) (Event.release (Int.ofNat i))
      (s.buttonMask.getD i false)
      ((eventLoop d s reads).1.filter
        (fun e => decide (e = Event.press (Int.ofNat i) ∨
          e = Event.release (Int.ofNat i)))) = true := by
  induction reads with
  | nil =>
    intro s _
    rw [eventLoop, List.filter_nil, altFrom_nil]
  | cons o rest ih =>
    intro s hlen
    cases o with
    | fail =>
      rw [eventLoop, List.filter_cons_of_neg (by simp), List.filter_nil, altFrom_nil]
    | frame t dt w =>
      simp only [eventLoop]
      rw [List.filter_append]
      have hlen' : ∀ j, j < d.numberOfButtons →
          j < (processReport d s t dt w).2.buttonMask.length := by
        intro j hj; rw [processReport_buttonMask_length]; exact hlen j hj
      have hrec := ih (processReport d s t dt w).2 hlen'
      rcases processReport_buttonProj d hmap s t dt w i hlen with
        ⟨hw, hs⟩ | ⟨hw, hm0, hs⟩ | ⟨hw, hm1, hs⟩
      · rw [hw, List.nil_append, ← hs]
        exact hrec
      · rw [hw, hm0, List.cons_append, List.nil_append, altFrom_false_cons,
          Bool.and_eq_true]
        rw [hs] at hrec
        exact ⟨by simp, hrec⟩
      · rw [hw, hm1, List.cons_append, List.nil_append, altFrom_true_cons,
          Bool.and_eq_true]
        rw [hs] at hrec
        exact ⟨by simp, hrec⟩

lemma eventLoop_encoder_altFrom (d : DeviceType) (i : Nat)
    (reads : List ReadOutcome) :
    ∀ s : ListenerState, (∀ j, j < numberOfEncoders → j < s.encoderButtonMask.length) →
    altFrom (Event.encoderPush i true) (Event.encoderPush i false)
      (s.encoderButtonMask.getD i false)
      ((eventLoop d s reads).1.filter
        (fun e => decide (e = Event.encoderPush i true ∨
          e = Event.encoderPush i false))) = true := by
  induction reads with
  | nil =>
    intro s _
    rw [eventLoop, List.filter_nil, altFrom_nil]
  | cons o rest ih =>
    intro s hlen
    cases o with
    | fail =>
      rw [eventLoop, List.filter_cons_of_neg (by simp), List.filter_nil, altFrom_nil]
    | frame t dt w =>
      simp only [eventLoop]
      rw [List.filter_append]
      have hlen' : ∀ j, j < numberOfEncoders →
          j < (processReport d s t dt w).2.encoderButtonMask.length := by
        intro j hj; rw [processReport_encoderMask_length]; exact hlen j hj
      have hrec := ih (processReport d s t dt w).2 hlen'
      rcases processReport_encoderProj d s t dt w i hlen with
        ⟨hw, hs⟩ | ⟨hw, hm0, hs⟩ | ⟨hw, hm1, hs⟩
      · rw [hw, List.nil_append, ← hs]
        exact hrec
      · rw [hw, hm0, List.cons_append, List.nil_append, altFrom_false_cons,
          Bool.and_eq_true]
        rw [hs] at hrec
        exact ⟨by simp, hrec⟩
      · rw [hw, hm1, List.cons_append, List.nil_append, altFrom_true_cons,
          Bool.and_eq_true]
        rw [hs] at hrec
        exact ⟨by simp, hrec⟩

lemma altFrom_count_le (p r : Event) (hpr : p ≠ r) :
    ∀ (w : List Event) (b : Bool), altFrom p r b w = true →
    ∀ w', w' <+: w → w'.count r ≤ w'.count p + (if b then 1 else 0) := by
  intro w
  induction w with
  | nil =>
    intro b _ w' hw'
    rw [List.prefix_nil.mp hw']
    simp
  | cons e t ih =>
    intro b hb w' hw'
    cases w' with
    | nil => simp
    | cons x xs =>
      obtain ⟨rfl, hxs⟩ := (List.cons_prefix_cons.mp hw')
      cases b with
      | false =>
        rw [altFrom_false_cons, Bool.and_eq_true, decide_eq_true_eq] at hb
        obtain ⟨he, halt⟩ := hb
        subst he
        have hcnt := ih true halt xs hxs
        rw [List.count_cons, List.count_cons]
        have hner : (x == r) = false := by
          simp only [beq_eq_false_iff_ne]; exact hpr
        have hyep : (x == x) = true := by simp
        rw [hner, hyep]
        simp only [if_true] at hcnt
        simp only [Bool.false_eq_true, if_false, if_true]
        omega
      | true =>
        rw [altFrom_true_cons, Bool.and_eq_true, decide_eq_true_eq] at hb
        obtain ⟨he, halt⟩ := hb
        subst he
        have hcnt := ih false halt xs hxs
        rw [List.count_cons, List.count_cons]
        have hnep : (x == p) = false := by
          simp only [beq_eq_false_iff_ne]; exact fun h => hpr h.symm
        have hyer : (x == x) = true := by simp
        rw [hnep, hyer]
        simp only [Bool.false_eq_true, if_false] at hcnt
        simp only [Bool.false_eq_true, if_false, if_true]
        omega


/-- C5: in every run of the decoder against any report sequence, and at every
prefix of the emitted event stream, the number of release events for a
button index never exceeds the number of press events for that index, and
likewise encoder release (push false) events never exceed encoder press
(push true) events: a release is only ever emitted against a previously
latched press, so a press suppressed by the 100 ms debounce gate can never
produce a stray release.  (Stated for descriptors without a remap table,
which covers every device registered in this tree.) -/
theorem release_only_after_latched_press (d : DeviceType) (hmap : d.buttonMap = [])
    (t0 : Nat) (reads : List ReadOutcome) (i k : Nat) :
    ((eventListener d t0 reads).take k).count (Event.release (Int.ofNat i)) ≤
      ((eventListener d t0 reads).take k).count (Event.press (Int.ofNat i)) ∧
    ((eventListener d t0 reads).take k).count (Event.encoderPush i false) ≤
      ((eventListener d t0 reads).take k).count (Event.encoderPush i true) := by
  constructor
  · have halt := eventLoop_button_altFrom d hmap i reads (initState d t0)
      (by intro j hj
          show j < (List.replicate d.numberOfButtons false).length
          rw [List.length_replicate]; exact hj)
    have hb0 : (initState d t0).buttonMask.getD i false = false := getD_replicate _ _ _
    rw [hb0] at halt
    have hpre : ((eventListener d t0 reads).take k).filter
        (fun e => decide (e = Event.press (Int.ofNat i) ∨
          e = Event.release (Int.ofNat i))) <+:
        ((eventLoop d (initState d t0) reads).1).filter
        (fun e => decide (e = Event.press (Int.ofNat i) ∨
          e = Event.release (Int.ofNat i))) :=
      List.IsPrefix.filter _ ( List.take_prefix _ _)
    have hcnt := altFrom_count_le (Event.press (Int.ofNat i)) (Event.release (Int.ofNat i))
      (by simp) _ false halt _ hpre
    rw [List.count_filter (by simp), List.count_filter (by simp)] at hcnt
    simpa using hcnt
  · have halt := eventLoop_encoder_altFrom d i reads (initState d t0)
      (by intro j hj
          show j < (List.replicate numberOfEncoders false).length
          rw [List.length_replicate]; exact hj)
    have hb0 : (initState d t0).encoderButtonMask.getD i false = false :=
      getD_replicate _ _ _
    rw [hb0] at halt
    have hpre : ((eventListener d t0 reads).take k).filter
        (fun e => decide (e = Event.encoderPush i true ∨
          e = Event.encoderPush i false)) <+:
        ((eventLoop d (initState d t0) reads).1).filter
        (fun e => decide (e = Event.encoderPush i true ∨
          e = Event.encoderPush i false)) :=
      List.IsPrefix.filter _ ( List.take_prefix _ _)
    have hcnt := altFrom_count_le (Event.encoderPush i true) (Event.encoderPush i false)
      (by simp) _ false halt _ hpre
    rw [List.count_filter (by simp), List.count_filter (by simp)] at hcnt
    simpa using hcnt

/-- C5 (witness): the latch theorem at the Streamdeck Neo with a concrete
two-report run and prefix length 3. -/
theorem release_only_after_latched_press_witness :
    neoDevice.buttonMap = [] ∧
    (((eventListener neoDevice 0
        [ReadOutcome.frame 150 (mkReport 4 1) true,
         ReadOutcome.frame 260 (mkReport 4 0) true]).take 3).count
        (Event.release (Int.ofNat 0)) ≤
      ((eventListener neoDevice 0
        [ReadOutcome.frame 150 (mkReport 4 1) true,
         ReadOutcome.frame 260 (mkReport 4 0) true]).take 3).count
        (Event.press (Int.ofNat 0)) ∧
    ((eventListener neoDevice 0
        [ReadOutcome.frame 150 (mkReport 4 1) true,
         ReadOutcome.frame 260 (mkReport 4 0) true]).take 3).count
        (Event.encoderPush 0 false) ≤
      ((eventListener neoDevice 0
        [ReadOutcome.frame 150 (mkReport 4 1) true,
         ReadOutcome.frame 260 (mkReport 4 0) true]).take 3).count
        (Event.encoderPush 0 true)) :=
  ⟨rfl, release_only_after_latched_press neoDevice rfl 0
    [ReadOutcome.frame 150 (mkReport 4 1) true,
     ReadOutcome.frame 260 (mkReport 4 0) true] 0 3⟩


/-- C8 (witness): the chunk-length characterization applied to the Streamdeck
Plus at a concrete loop state (3 bytes remaining of a 3-byte image). -/
theorem chunk_length_min_witness :
    (0 : Nat) < 3 ∧
    frameLoop plusDevice 0 [1, 2, 3] 3 0 0 (2 + 1) =
      (let header := plusDevice.imageHeaderFunc 3 0 0
       let payloadCapacity := plusDevice.imagePayloadPerPage - header.length
       let chunkLength :=
         if plusDevice.name = "Streamdeck (original)" ∧ payloadCapacity < 3 then
           ([1, 2, 3] : List Nat).length / 2
         else min payloadCapacity 3
       let payload := header ++ (([1, 2, 3] : List Nat).drop 0).take chunkLength
       let packet := payload ++
         List.replicate (plusDevice.imagePayloadPerPage - payload.length) 0
       match frameLoop plusDevice 0 [1, 2, 3] (3 - chunkLength) (0 + chunkLength)
           (0 + 1) 2 with
       | some rest => some (packet :: rest)
       | none => none) :=
  ⟨by omega,
   chunk_length_min_with_original_exception plusDevice 0 [1, 2, 3] 3 0 0 2 (by omega)⟩

/-! ## Claim C9 — network handshake serial -/

/-- C9 (counterexample): the claim's acceptance condition ("the frame is long
enough to contain L bytes starting at offset 4") is satisfied by a 1024-byte
reply frame with L = 1020 (since 4 + 1020 ≤ 1024), yet the handshake loop
skips that frame: the code requires the byte count to strictly exceed
`4 + L`, so a frame holding exactly `4 + L` bytes is never accepted. -/
theorem tcp_serial_length_boundary_counterexample :
    specAcceptsReplyFrame 1024 ([3, 0x84, 3, 0xfc] ++ List.replicate 1020 65) = true ∧
    openTCPSerialScan [(1024, [3, 0x84, 3, 0xfc] ++ List.replicate 1020 65)] = none := by
  exact ⟨by rfl, by rfl⟩

/-- C9 (amended): the handshake loop reads frames until one has byte 0 = 0x03,
byte 1 = 0x84, a big-endian 16-bit length L at offset 2 with the read byte
count STRICTLY GREATER than 4 + L, and a nonempty serial; it then resolves the
serial as exactly the L bytes at offset 4.  In particular, after any number of
rejected frames, the 1024-byte reply with L = 4 and bytes "AB12" at offset 4
resolves serial "AB12" (bytes [65, 66, 49, 50]). -/
theorem tcp_serial_handshake_amended (pre rest : List (Nat × List Nat))
    (hpre : ∀ p ∈ pre, tcpSerialFromReply p.1 p.2 = []) :
    openTCPSerialScan
        (pre ++ (1024, [3, 0x84, 0, 4, 65, 66, 49, 50] ++ List.replicate 1016 0) :: rest) =
      some [65, 66, 49, 50] := by
  induction pre with
  | nil => rfl
  | cons p t ih =>
    obtain ⟨n, data⟩ := p
    rw [List.cons_append, openTCPSerialScan]
    have hp := hpre (n, data) (by simp)
    dsimp only [] at hp ⊢
    rw [hp, if_pos rfl]
    exact ih fun q hq => hpre q (by simp [hq])

/-- C9 (witness): the amended handshake theorem with one concrete rejected
frame (the L = 1020 boundary frame) before the accepted "AB12" frame. -/
theorem tcp_serial_handshake_witness :
    (∀ p ∈ [((1024 : Nat), [3, 0x84, 3, 0xfc] ++ List.replicate 1020 (65 : Nat))],
      tcpSerialFromReply p.1 p.2 = []) ∧
    openTCPSerialScan
        ([((1024 : Nat), [3, 0x84, 3, 0xfc] ++ List.replicate 1020 (65 : Nat))] ++
          (1024, [3, 0x84, 0, 4, 65, 66, 49, 50] ++ List.replicate 1016 0) :: []) =
      some [65, 66, 49, 50] :=
  ⟨by intro p hp; simp only [List.mem_singleton] at hp; subst hp; rfl,
   tcp_serial_handshake_amended
     [(1024, [3, 0x84, 3, 0xfc] ++ List.replicate 1020 65)] []
     (by intro p hp; simp only [List.mem_singleton] at hp; subst hp; rfl)⟩

/-! ## Claim C10 — TCP control-report padding/truncation -/

/-- C10: `TCPClient.SendFeatureReport` always hands exactly 1024 bytes to
`conn.Write`: the first `min (len payload) 1024` bytes are the payload's and
every remaining byte is zero — short payloads are zero-padded and payloads
longer than 1024 bytes are silently truncated. -/
theorem sendFeatureReport_pads_and_truncates (payload : List Nat) :
    (TCPClientSendFeatureReport payload).length = 1024 ∧
    ∀ i, i < 1024 →
      (TCPClientSendFeatureReport payload).getD i 0 =
        if i < min payload.length 1024 then payload.getD i 0 else 0 := by
  constructor
  · simp [TCPClientSendFeatureReport, goCopy]
  · intro i hi
    have hstep : (TCPClientSendFeatureReport payload).getD i 0 =
        if i < payload.length then payload.getD i 0
        else (List.replicate 1024 (0 : Nat)).getD i 0 := by
      simp only [TCPClientSendFeatureReport, goCopy, List.getD, List.length_replicate,
        List.get?_eq_getElem?, List.getElem?_map]
      rw [List.getElem?_range hi]
      rfl
    rw [hstep]
    by_cases h : i < payload.length
    · rw [if_pos h, if_pos (by omega)]
    · rw [if_neg h, if_neg (by omega), getD_replicate]

/-- C10 (witness): the padding/truncation theorem at the payload [7, 8, 9],
checked at index 1 (inside the payload) and index 900 (in the zero padding). -/
theorem sendFeatureReport_pads_and_truncates_witness :
    (TCPClientSendFeatureReport [7, 8, 9]).length = 1024 ∧
    ((1 : Nat) < 1024 ∧
      (TCPClientSendFeatureReport [7, 8, 9]).getD 1 0 =
        if 1 < min ([7, 8, 9] : List Nat).length 1024 then
          ([7, 8, 9] : List Nat).getD 1 0 else 0) ∧
    ((900 : Nat) < 1024 ∧
      (TCPClientSendFeatureReport [7, 8, 9]).getD 900 0 =
        if 900 < min ([7, 8, 9] : List Nat).length 1024 then
          ([7, 8, 9] : List Nat).getD 900 0 else 0) :=
  ⟨(sendFeatureReport_pads_and_truncates [7, 8, 9]).1,
   ⟨by omega, (sendFeatureReport_pads_and_truncates [7, 8, 9]).2 1 (by omega)⟩,
   ⟨by omega, (sendFeatureReport_pads_and_truncates [7, 8, 9]).2 900 (by omega)⟩⟩

end Streamdeck
